import Mathlib

/-!
Verification of the QueryLens SQL fact-extraction layer.

This file shallowly embeds the extraction and validation code of
src/lib/sql-parser/index.ts and src/lib/schema-parser/index.ts:

* the result data model (ParsedTable, ParsedColumn, ParsedJoin, ParsedQuery);
* the AST node shapes the extractor reads (the upstream SQL-to-AST parser is an
  external black box, so the embedding starts at the AST, mirroring the
  optional-field probing the TypeScript code performs on untyped nodes);
* the extraction walk (processStatements and its helpers), the column
  deduplication pass, the schema validator, and the DDL schema builder.

JavaScript-specific semantics are modelled explicitly: `undefined` becomes
`Option.none`, truthiness of strings distinguishes the empty string, `a || b`
becomes an explicit combinator, and the in-place mutation of accumulator arrays
becomes state passing of the corresponding lists.
-/

namespace QueryLens

/-! ## Result data model (src/types/index.ts) -/

/-- JoinType enum from src/types/index.ts. -/
inductive JoinType where
  | INNER
  | LEFT
  | RIGHT
  | FULL
  | CROSS
deriving DecidableEq, Repr

/-- QueryType enum from src/types/index.ts. -/
inductive QueryType where
  | SELECT
  | INSERT
  | UPDATE
  | DELETE
  | CTE
deriving DecidableEq, Repr

/-- ParsedTable from src/types/index.ts (the unused qualifiedName field is
omitted; the extractor never reads or writes it). The TS field named alias is
rendered aliasName here and below, since that word is reserved in Lean. -/
structure ParsedTable where
  name : String
  aliasName : Option String := none
  schema : Option String := none
deriving DecidableEq, Repr

/-- ParsedColumn from src/types/index.ts. Optional fields are `Option`;
`isValid`/`dataType` stay `none` until schema validation sets them. -/
structure ParsedColumn where
  name : String
  table : Option String := none
  aliasName : Option String := none
  isSelected : Bool := false
  isJoinColumn : Bool := false
  isFilterColumn : Bool := false
  isModified : Bool := false
  isValid : Option Bool := none
  dataType : Option String := none
deriving DecidableEq, Repr

/-- ParsedJoin from src/types/index.ts. -/
structure ParsedJoin where
  type : JoinType
  leftTable : String
  rightTable : String
  leftColumn : String
  rightColumn : String
  condition : Option String := none
deriving DecidableEq, Repr

/-- ParsedQuery from src/types/index.ts. It nests recursively through `ctes`
and `subqueries`, so it is an inductive type with accessor functions. -/
inductive ParsedQuery where
  | mk (type : QueryType) (tables : List ParsedTable) (columns : List ParsedColumn)
      (joins : List ParsedJoin) (whereConditions : List String)
      (ctes : List ParsedQuery) (subqueries : List ParsedQuery) (rawSql : String)

def ParsedQuery.type : ParsedQuery → QueryType
  | .mk t _ _ _ _ _ _ _ => t

def ParsedQuery.tables : ParsedQuery → List ParsedTable
  | .mk _ t _ _ _ _ _ _ => t

def ParsedQuery.columns : ParsedQuery → List ParsedColumn
  | .mk _ _ c _ _ _ _ _ => c

def ParsedQuery.joins : ParsedQuery → List ParsedJoin
  | .mk _ _ _ j _ _ _ _ => j

def ParsedQuery.whereConditions : ParsedQuery → List String
  | .mk _ _ _ _ w _ _ _ => w

def ParsedQuery.ctes : ParsedQuery → List ParsedQuery
  | .mk _ _ _ _ _ c _ _ => c

def ParsedQuery.subqueries : ParsedQuery → List ParsedQuery
  | .mk _ _ _ _ _ _ s _ => s

def ParsedQuery.rawSql : ParsedQuery → String
  | .mk _ _ _ _ _ _ _ r => r

/-! ## JavaScript semantics helpers -/

/-- Truthiness of an optional string: JavaScript treats both `undefined` and
the empty string as falsy. -/
def truthyOptStr : Option String → Bool
  | some s => !(s == "")
  | none => false

/-- JavaScript `a || b` on optional strings: returns `a` when it is truthy
(present and non-empty), otherwise returns `b` unchanged. -/
def jsOrStr (a b : Option String) : Option String :=
  match a with
  | some s => if s == "" then b else some s
  | none => b

/-- JavaScript `a || d` where `d` is a plain string default. -/
def jsOrDflt (a : Option String) (d : String) : String :=
  match a with
  | some s => if s == "" then d else s
  | none => d

/-- JavaScript `toUpperCase`, via the character list (the core String.toUpper
is not kernel-reducible). -/
def strToUpper (s : String) : String := String.mk (s.data.map Char.toUpper)

/-- JavaScript `toLowerCase`, via the character list. -/
def strToLower (s : String) : String := String.mk (s.data.map Char.toLower)

/-- Containment of one character list in another (needle appears contiguously). -/
def charListIncludes : List Char → List Char → Bool
  | [], needle => needle.isEmpty
  | c :: t, needle => needle.isPrefixOf (c :: t) || charListIncludes t needle

/-- JavaScript `String.prototype.includes` as used by normalizeJoinType. -/
def strIncludes (s sub : String) : Bool :=
  charListIncludes s.toList sub.toList

/-- Assignment to a string-keyed map (JS `Map.prototype.set` and object
property assignment): updating an existing key keeps its position, a new key
is appended. -/
def mapSet {α : Type} (m : List (String × α)) (k : String) (v : α) : List (String × α) :=
  if m.any (fun p => p.1 == k) then
    m.map (fun p => if p.1 == k then (k, v) else p)
  else m ++ [(k, v)]

/-- Lookup in a string-keyed map (JS `Map.prototype.get` / property access). -/
def assocLookup {α : Type} (m : List (String × α)) (k : String) : Option α :=
  (m.find? (fun p => p.1 == k)).map (fun p => p.2)

/-! ## AST node shapes (pgsql-ast-parser output, as probed by the code) -/

/-- The `table` field of a column-reference node: an object with an optional
`name` field (`expr.table?.name`). -/
structure RefTbl where
  name : Option String := none
deriving DecidableEq, Repr

/-- Expression AST nodes, one constructor per `type` tag the code inspects.
Unknown node kinds collapse into `unknown`, which every walker skips, matching
the defensive `else`-less dispatch of the TypeScript. CASE WHEN items are
(when, value) pairs. -/
inductive Expr where
  | ref (table : Option RefTbl) (name : Option String)
  | binary (op : Option String) (left : Option Expr) (right : Option Expr)
  | unary (operand : Option Expr)
  | ternary (value : Option Expr)
  | call (args : Option (List Expr))
  | intLit (value : Int)
  | numericLit (rendering : String)
  | stringLit (value : String)
  | caseE (whens : Option (List (Option Expr × Option Expr))) (elseE : Option Expr)
  | cast (operand : Option Expr)
  | unknown
deriving Repr

/-- Join clause attached to a FROM item (`fromItem.join`). -/
structure JoinNode where
  type : Option String := none
  onE : Option Expr := none
deriving Repr

/-- Table reference node (`stmt.into`, `stmt.table`, `stmt.from` of DELETE,
and `fromItem.name`): `{name?, alias?, schema?}`. -/
structure TableRef where
  name : Option String := none
  aliasName : Option String := none
  schema : Option String := none
deriving DecidableEq, Repr

/-- A SELECT-list item: `{expr?, alias?: {name?}}`. The alias object is
flattened to its `name` field (`col.alias?.name`). -/
structure SelectCol where
  expr : Option Expr := none
  aliasName : Option String := none
deriving Repr

/-- The `alias` field of a subquery FROM item, which the code probes both as a
plain string and as an object with a `name` field. -/
inductive AliasField where
  | asString (s : String)
  | asObj (name : Option String)
deriving Repr

/-- A FROM-clause item. `tableItem` fields mirror `{name?: TableRef,
alias?: {name?}, schema?, join?}` (the alias object flattened to its name).
`statementItem` is a FROM subquery: its node `type` is the string
(statement), which matches no case of the statement-kind switch, so its
nested extraction yields the empty query (see processStatements below);
only its alias matters. -/
inductive FromItem where
  | tableItem (name : Option TableRef) (aliasName : Option String)
      (schema : Option String) (join : Option JoinNode)
  | statementItem (aliasVal : Option AliasField)
  | otherItem
deriving Repr

/-- A value that is either a plain string or an object carrying an optional
`name` field (INSERT column-list items, SET targets, constraint columns). -/
inductive StrOrObj where
  | str (s : String)
  | obj (name : Option String)
deriving DecidableEq, Repr

/-- Reading a StrOrObj: `typeof v === (string) ? v : v.name`. -/
def StrOrObj.nameOf : StrOrObj → Option String
  | .str s => some s
  | .obj n => n

mutual
/-- Statement AST nodes, one constructor per statement `type` tag the switch
in processStatements recognizes; anything else is `otherStmt` and is skipped.
Field shapes mirror the TypeScript type declarations. ORDER BY items are
flattened to their `by` expression. -/
inductive Statement where
  | selectStmt (fromItems : Option (List FromItem)) (columns : Option (List SelectCol))
      (whereE : Option Expr) (groupBy : Option (List Expr))
      (orderBy : Option (List (Option Expr)))
  | insertStmt (into : Option TableRef) (columns : Option (List StrOrObj))
  | updateStmt (table : Option TableRef) (sets : Option (List (Option StrOrObj)))
      (whereE : Option Expr)
  | deleteStmt (fromT : Option TableRef) (whereE : Option Expr)
  | withStmt (bind : Option (List CTEItem)) (inStmt : Option Statement)
  | unionStmt (unionAll : Bool) (left : Option Statement) (right : Option Statement)
  | otherStmt

/-- One WITH-clause binding: `{statement?, alias?}`. -/
inductive CTEItem where
  | mk (statement : Option Statement) (aliasName : Option String)
end

/-! ## sql-parser helper functions (src/lib/sql-parser/index.ts) -/

/-- extractTableName applied to a TableRef-shaped node: `node.name` is an
optional string, and the empty string is falsy, hence `none`. -/
def extractTableName (node : TableRef) : Option String :=
  match node.name with
  | some s => if s == "" then none else some s
  | none => none

/-- extractTableName applied to a whole FROM item: there `node.name` is itself
a TableRef object (always truthy when present), so the result is
`node.name.name` as-is. -/
def extractTableNameF (name : Option TableRef) : Option String :=
  name.bind TableRef.name

/-- resolveTableName: a falsy (absent or empty) qualifier resolves to
undefined; a qualifier matching some table's alias resolves to that table's
name; otherwise the qualifier is returned as-is. -/
def resolveTableName (nameOrAlias : Option String) (tables : List ParsedTable) : Option String :=
  match nameOrAlias with
  | none => none
  | some s =>
    if s == "" then none
    else
      match tables.find? (fun t => t.aliasName == some s) with
      | some t => some t.name
      | none => some s

/-- normalizeJoinType: case-insensitive containment checks, INNER default.
A falsy (absent or empty) type string is INNER. -/
def normalizeJoinType (t : Option String) : JoinType :=
  match t with
  | none => .INNER
  | some s =>
    if s == "" then .INNER
    else
      let normalized := strToUpper s
      if strIncludes normalized "LEFT" then .LEFT
      else if strIncludes normalized "RIGHT" then .RIGHT
      else if strIncludes normalized "FULL" then .FULL
      else if strIncludes normalized "CROSS" then .CROSS
      else .INNER

/-- Single-quote character, built from its code point so the file avoids a
literal quote character inside string literals. -/
def singleQuote : String := (Char.ofNat 39).toString

/-- stringifyExpression: refs render as [table.]name, literals verbatim
(strings quoted), binary nodes recursively, everything else as the empty
string. A numericLit carries its JS String() rendering directly, since
floating-point formatting is outside this embedding. -/
def stringifyExpression : Expr → String
  | .ref tbl nm =>
    match tbl with
    | some t => (t.name.getD "") ++ "." ++ (nm.getD "")
    | none => nm.getD ""
  | .intLit v => toString v
  | .numericLit rendering => rendering
  | .stringLit v => singleQuote ++ v ++ singleQuote
  | .binary op l r =>
    (match l with | some e => stringifyExpression e | none => "") ++ " " ++ (op.getD "") ++ " "
      ++ (match r with | some e => stringifyExpression e | none => "")
  | _ => ""

/-- Update of the first list element satisfying a predicate (JS
`Array.prototype.find` followed by mutation of the found element). -/
def updateFirst {α : Type} (p : α → Bool) (f : α → α) : List α → List α
  | [] => []
  | x :: xs => if p x then f x :: xs else x :: updateFirst p f xs

/-! ## Column-reference walkers -/

mutual
/-- extractColumnReference: a ref merges role flags into the first existing
column with the same (name, resolved table) or pushes a new entry; a binary
node is handled by extractBinaryColumns and a call node by
extractFunctionColumns (their two-line bodies are inlined here so the
recursion stays structural; the standalone definitions below are the same
code); cast recurses with the same roles; other nodes are ignored. -/
def extractColumnReference : Expr → List ParsedColumn → List ParsedTable → Bool → Bool → Bool → Bool → List ParsedColumn
  | .ref tbl nm, columns, tables, isSelected, isJoinColumn, isFilterColumn, isModified =>
    let tableName := resolveTableName (tbl.bind RefTbl.name) tables
    (match columns.find? (fun c => (nm == some c.name) && (c.table == tableName)) with
     | some _ =>
       updateFirst (fun c => (nm == some c.name) && (c.table == tableName))
         (fun c => { c with
           isSelected := c.isSelected || isSelected,
           isJoinColumn := c.isJoinColumn || isJoinColumn,
           isFilterColumn := c.isFilterColumn || isFilterColumn,
           isModified := c.isModified || isModified }) columns
     | none =>
       columns ++ [{ name := nm.getD "", table := tableName,
                     isSelected := isSelected, isJoinColumn := isJoinColumn,
                     isFilterColumn := isFilterColumn, isModified := isModified }])
  | .binary _ l r, columns, tables, _, _, _, _ =>
    -- extractBinaryColumns(expr, columns, tables): both sides walked with the
    -- selected role
    let columns := match l with
      | some e => extractColumnReference e columns tables true false false false
      | none => columns
    (match r with
     | some e => extractColumnReference e columns tables true false false false
     | none => columns)
  | .call args, columns, tables, _, _, _, _ =>
    -- extractFunctionColumns(expr, columns, tables): every argument walked
    -- with the selected role
    (match args with
     | some argList => extractArgsLoop argList columns tables
     | none => columns)
  | .cast operand, columns, tables, isSelected, isJoinColumn, isFilterColumn, isModified =>
    (match operand with
     | some e => extractColumnReference e columns tables isSelected isJoinColumn isFilterColumn isModified
     | none => columns)
  | _, columns, _, _, _, _, _ => columns

/-- Loop over function-call arguments (the body of extractFunctionColumns). -/
def extractArgsLoop : List Expr → List ParsedColumn → List ParsedTable → List ParsedColumn
  | [], columns, _ => columns
  | e :: rest, columns, tables =>
    extractArgsLoop rest (extractColumnReference e columns tables true false false false) tables
end

/-- extractBinaryColumns on the whole node, as the TypeScript receives it
(used from extractSelectColumn). A node of another kind has no left/right
fields, so nothing is walked. -/
def extractBinaryColumns (expr : Expr) (columns : List ParsedColumn) (tables : List ParsedTable) : List ParsedColumn :=
  match expr with
  | .binary _ l r =>
    let columns := match l with
      | some e => extractColumnReference e columns tables true false false false
      | none => columns
    (match r with
     | some e => extractColumnReference e columns tables true false false false
     | none => columns)
  | _ => columns

/-- extractFunctionColumns on the whole node, as the TypeScript receives it
(used from extractSelectColumn and the WHERE walker). A node of another kind
has no args field, so nothing is walked. -/
def extractFunctionColumns (func : Expr) (columns : List ParsedColumn) (tables : List ParsedTable) : List ParsedColumn :=
  match func with
  | .call (some argList) => extractArgsLoop argList columns tables
  | _ => columns

/-- Loop over CASE WHEN items: each (when, value) pair is walked with the
selected role. -/
def caseWhensLoop : List (Option Expr × Option Expr) → List ParsedColumn → List ParsedTable → List ParsedColumn
  | [], columns, _ => columns
  | (w, v) :: rest, columns, tables =>
    let columns := match w with
      | some e => extractColumnReference e columns tables true false false false
      | none => columns
    let columns := match v with
      | some e => extractColumnReference e columns tables true false false false
      | none => columns
    caseWhensLoop rest columns tables

/-- extractCaseColumns: WHEN conditions, WHEN values and the ELSE branch are
all walked with the selected role. -/
def extractCaseColumns (caseExpr : Expr) (columns : List ParsedColumn) (tables : List ParsedTable) : List ParsedColumn :=
  match caseExpr with
  | .caseE whens elseE =>
    let columns := match whens with
      | some ws => caseWhensLoop ws columns tables
      | none => columns
    (match elseE with
     | some e => extractColumnReference e columns tables true false false false
     | none => columns)
  | _ => columns

/-! ## WHERE-condition walkers -/

/-- extractBinaryCondition: both sides contribute column references (filter
role unless inside a join condition), and a literal condition string
left-op-right is appended when all three stringify to something truthy. -/
def extractBinaryCondition (binary : Expr) (conditions : List String)
    (columns : List ParsedColumn) (tables : List ParsedTable)
    (isJoinCondition : Bool) : List String × List ParsedColumn :=
  match binary with
  | .binary op l r =>
    let columns := match l with
      | some e => extractColumnReference e columns tables false isJoinCondition (!isJoinCondition) false
      | none => columns
    let columns := match r with
      | some e => extractColumnReference e columns tables false isJoinCondition (!isJoinCondition) false
      | none => columns
    let leftStr := match l with
      | some e => stringifyExpression e
      | none => ""
    let rightStr := match r with
      | some e => stringifyExpression e
      | none => ""
    if leftStr != "" && rightStr != "" && truthyOptStr op then
      (conditions ++ [leftStr ++ " " ++ op.getD "" ++ " " ++ rightStr], columns)
    else (conditions, columns)
  | _ => (conditions, columns)

/-- extractWhereConditions: AND/OR recurse into both sides, other binary
nodes become one condition string via extractBinaryCondition, unary recurses
into the operand, ternary and plain refs record a filter-role reference,
calls walk their arguments, anything else is skipped. -/
def extractWhereConditions : Expr → List String → List ParsedColumn → List ParsedTable → Bool → List String × List ParsedColumn
  | .binary op l r, conditions, columns, tables, isJoinCondition =>
    if op == some "AND" || op == some "OR" then
      let s := match l with
        | some e => extractWhereConditions e conditions columns tables isJoinCondition
        | none => (conditions, columns)
      (match r with
       | some e => extractWhereConditions e s.1 s.2 tables isJoinCondition
       | none => s)
    else
      extractBinaryCondition (.binary op l r) conditions columns tables isJoinCondition
  | .unary operand, conditions, columns, tables, isJoinCondition =>
    (match operand with
     | some e => extractWhereConditions e conditions columns tables isJoinCondition
     | none => (conditions, columns))
  | .ternary value, conditions, columns, tables, isJoinCondition =>
    (match value with
     | some e => (conditions, extractColumnReference e columns tables false isJoinCondition true false)
     | none => (conditions, columns))
  | .ref tbl nm, conditions, columns, tables, isJoinCondition =>
    (conditions, extractColumnReference (.ref tbl nm) columns tables false isJoinCondition true false)
  | .call args, conditions, columns, tables, _ =>
    (conditions, extractFunctionColumns (.call args) columns tables)
  | _, conditions, columns, _, _ => (conditions, columns)

/-! ## SELECT-list, JOIN and FROM-clause extraction -/

/-- extractSelectColumn: plain refs and casts of refs push a selected column
(the TypeScript pushes col.expr.name with no default; an absent name becomes
the empty string here), calls/binaries/cases delegate to their walkers. -/
def extractSelectColumn (col : SelectCol) (columns : List ParsedColumn) (tables : List ParsedTable) : List ParsedColumn :=
  match col.expr with
  | some (.ref tbl nm) =>
    let tableName := resolveTableName (tbl.bind RefTbl.name) tables
    columns ++ [{ name := nm.getD "", table := tableName, aliasName := col.aliasName,
                  isSelected := true }]
  | some (.call args) => extractFunctionColumns (.call args) columns tables
  | some (.binary op l r) => extractBinaryColumns (.binary op l r) columns tables
  | some (.cast operand) =>
    (match operand with
     | some (.ref tbl nm) =>
       let tableName := resolveTableName (tbl.bind RefTbl.name) tables
       columns ++ [{ name := nm.getD "", table := tableName, aliasName := col.aliasName,
                     isSelected := true }]
     | _ => columns)
  | some (.caseE whens elseE) => extractCaseColumns (.caseE whens elseE) columns tables
  | _ => columns

/-- extractJoinInfo: produces a ParsedJoin exactly when the item has a join
clause with an ON expression that is a binary equality between two refs. The
condition string renders undefined parts as the string (undefined), matching
the JS template literal. -/
def extractJoinInfo (tableItem : FromItem) (tables : List ParsedTable) : Option ParsedJoin :=
  match tableItem with
  | .tableItem _ _ _ (some joinClause) =>
    (match joinClause.onE with
     | none => none
     | some onCondition =>
       let joinType := normalizeJoinType joinClause.type
       (match onCondition with
        | .binary op l r =>
          if op == some "=" then
            match l, r with
            | some (.ref lt ln), some (.ref rt rn) =>
              let leftQual := lt.bind RefTbl.name
              let rightQual := rt.bind RefTbl.name
              let leftTable := resolveTableName leftQual tables
              let rightTable := resolveTableName rightQual tables
              some { type := joinType,
                     leftTable := leftTable.getD "",
                     rightTable := rightTable.getD "",
                     leftColumn := ln.getD "",
                     rightColumn := rn.getD "",
                     condition := some ((jsOrStr leftTable leftQual).getD "undefined"
                       ++ "." ++ ln.getD "undefined" ++ " = "
                       ++ (jsOrStr rightTable rightQual).getD "undefined"
                       ++ "." ++ rn.getD "undefined") }
            | _, _ => none
          else none
        | _ => none))
  | _ => none

/-- markJoinColumns: resolve the table, then set isJoinColumn on the first
matching column or push a fresh join-role column. -/
def markJoinColumns (columns : List ParsedColumn) (tables : List ParsedTable)
    (tableNameOrAlias : String) (columnName : String) : List ParsedColumn :=
  let tableName := jsOrDflt (resolveTableName (some tableNameOrAlias) tables) tableNameOrAlias
  match columns.find? (fun c => (c.name == columnName) && (c.table == some tableName)) with
  | some _ =>
    updateFirst (fun c => (c.name == columnName) && (c.table == some tableName))
      (fun c => { c with isJoinColumn := true }) columns
  | none =>
    columns ++ [{ name := columnName, table := some tableName, isJoinColumn := true }]

/-! ## Column deduplication -/

/-- Deduplication key: table (empty-string sentinel for unqualified) joined to
the column name with a dot, exactly the template string of the code. -/
def colKey (c : ParsedColumn) : String := (c.table.getD "") ++ "." ++ c.name

/-- Merge of a newly observed column into the surviving map entry: role flags
are OR-ed; the alias is taken from the new entry only when the surviving one
is falsy and the new one truthy. -/
def mergeFlags (existing col : ParsedColumn) : ParsedColumn :=
  { existing with
    isSelected := existing.isSelected || col.isSelected,
    isJoinColumn := existing.isJoinColumn || col.isJoinColumn,
    isFilterColumn := existing.isFilterColumn || col.isFilterColumn,
    isModified := existing.isModified || col.isModified,
    aliasName := if !(truthyOptStr existing.aliasName) && truthyOptStr col.aliasName
                 then col.aliasName else existing.aliasName }

/-- One step of deduplicateColumns: the Map holds at most one entry per key,
so updating every entry whose key matches is the same as mutating the entry
map.get returned; a fresh key is appended, preserving insertion order. -/
def dedupStep (acc : List ParsedColumn) (col : ParsedColumn) : List ParsedColumn :=
  if acc.any (fun e => colKey e == colKey col) then
    acc.map (fun e => if colKey e == colKey col then mergeFlags e col else e)
  else acc ++ [col]

/-- deduplicateColumns: fold over the observed columns building the keyed map;
Array.from(map.values()) preserves first-insertion order, which the list
already has. -/
def deduplicateColumns (columns : List ParsedColumn) : List ParsedColumn :=
  columns.foldl dedupStep []

/-! ## Statement-level extraction -/

/-- Mutable traversal state of processStatements: the arrays the TypeScript
threads by reference, plus the queryType variable. -/
structure StAcc where
  queryType : QueryType := .SELECT
  tables : List ParsedTable := []
  columns : List ParsedColumn := []
  joins : List ParsedJoin := []
  whereConditions : List String := []
  ctes : List ParsedQuery := []
  subqueries : List ParsedQuery := []

/-- The ParsedQuery built from an accumulator, deduplicating columns; this is
the return expression of processStatements. -/
def finishQuery (acc : StAcc) (rawSql : String) : ParsedQuery :=
  .mk acc.queryType acc.tables (deduplicateColumns acc.columns) acc.joins
    acc.whereConditions acc.ctes acc.subqueries rawSql

/-- The ParsedQuery produced from no recognized statement at all. -/
def emptyParsedQuery (rawSql : String) : ParsedQuery :=
  .mk .SELECT [] [] [] [] [] [] rawSql

/-- extractFromClause: a table item pushes a Table Fact (alias and schema each
taken from the item or from its name object); an attached join then yields an
optional Join Fact, join-column marking, and a reference walk over the ON
expression whose condition strings go to a discarded fresh array. A subquery
item is handed to processStatements as-is, but its node type — the string
(statement) — matches no case of the statement switch, so the nested result
is the empty query (see processStatements_unrecognized); its alias then
registers a virtual table. -/
def extractFromClause (fromItem : FromItem) (acc : StAcc) (rawSql : String) : StAcc :=
  match fromItem with
  | .tableItem nm aliasF schemaF joinF =>
    (match extractTableNameF nm with
     | some tableName =>
       if tableName == "" then acc
       else
         let acc := { acc with tables := acc.tables ++ [{
           name := tableName,
           aliasName := jsOrStr aliasF (nm.bind TableRef.aliasName),
           schema := jsOrStr schemaF (nm.bind TableRef.schema) }] }
         (match joinF with
          | some joinClause =>
            (match extractJoinInfo fromItem acc.tables with
             | some joinInfo =>
               let acc := { acc with joins := acc.joins ++ [joinInfo] }
               let acc := { acc with
                 columns := markJoinColumns acc.columns acc.tables joinInfo.leftTable joinInfo.leftColumn }
               let acc := { acc with
                 columns := markJoinColumns acc.columns acc.tables joinInfo.rightTable joinInfo.rightColumn }
               (match joinClause.onE with
                | some onExpr =>
                  { acc with columns := (extractWhereConditions onExpr [] acc.columns acc.tables true).2 }
                | none => acc)
             | none => acc)
          | none => acc)
     | none => acc)
  | .statementItem aliasVal =>
    let acc := { acc with subqueries := acc.subqueries ++ [emptyParsedQuery rawSql] }
    (match aliasVal with
     | some (.asString s) =>
       if s == "" then acc
       else { acc with tables := acc.tables ++ [{ name := s, aliasName := some s }] }
     | some (.asObj n) =>
       let aliasName := n.getD "unknown"
       { acc with tables := acc.tables ++ [{ name := aliasName, aliasName := some aliasName }] }
     | none => acc)
  | .otherItem => acc

/-- Field probes of a statement node, as extractFromSelect performs them on an
argument that is only assumed, not guaranteed, to be a SELECT node. -/
def Statement.fromItems : Statement → Option (List FromItem)
  | .selectStmt f _ _ _ _ => f
  | _ => none

def Statement.selectColumns : Statement → Option (List SelectCol)
  | .selectStmt _ c _ _ _ => c
  | _ => none

def Statement.whereExpr : Statement → Option Expr
  | .selectStmt _ _ w _ _ => w
  | _ => none

def Statement.groupByExprs : Statement → Option (List Expr)
  | .selectStmt _ _ _ g _ => g
  | _ => none

def Statement.orderByExprs : Statement → Option (List (Option Expr))
  | .selectStmt _ _ _ _ o => o
  | _ => none

/-- extractFromSelect: FROM items, SELECT list, WHERE tree, GROUP BY and
ORDER BY (both with the filter role), in that order. -/
def extractFromSelect (stmt : Statement) (acc : StAcc) (rawSql : String) : StAcc :=
  let acc := match stmt.fromItems with
    | some items => items.foldl (fun a it => extractFromClause it a rawSql) acc
    | none => acc
  let acc := match stmt.selectColumns with
    | some cols => cols.foldl (fun a c => { a with columns := extractSelectColumn c a.columns a.tables }) acc
    | none => acc
  let acc := match stmt.whereExpr with
    | some w =>
      let r := extractWhereConditions w acc.whereConditions acc.columns acc.tables false
      { acc with whereConditions := r.1, columns := r.2 }
    | none => acc
  let acc := match stmt.groupByExprs with
    | some gs => gs.foldl (fun a g =>
        { a with columns := extractColumnReference g a.columns a.tables false false true false }) acc
    | none => acc
  match stmt.orderByExprs with
  | some os => os.foldl (fun a ob =>
      match ob with
      | some e => { a with columns := extractColumnReference e a.columns a.tables false false true false }
      | none => a) acc
  | none => acc

/-- extractFromInsert: target table plus one modified-role column per
column-list entry (falsy names skipped, as in the code). -/
def extractFromInsert (stmt : Statement) (acc : StAcc) : StAcc :=
  match stmt with
  | .insertStmt (some into) cols =>
    (match extractTableName into with
     | some tableName =>
       let acc := { acc with tables := acc.tables ++ [{ name := tableName, schema := into.schema }] }
       (match cols with
        | some colList =>
          { acc with columns := acc.columns ++ colList.foldl (fun cs c =>
              match c.nameOf with
              | some n => if n == "" then cs
                  else cs ++ [{ name := n, table := some tableName, isModified := true }]
              | none => cs) [] }
        | none => acc)
     | none => acc)
  | _ => acc

/-- extractFromUpdate: target table with alias/schema, a modified-role column
per SET target, then the WHERE tree (processed even when the table part was
absent, as in the code). -/
def extractFromUpdate (stmt : Statement) (acc : StAcc) : StAcc :=
  match stmt with
  | .updateStmt tableF sets whereF =>
    let acc := match tableF with
      | some table =>
        (match extractTableName table with
         | some tableName =>
           let acc := { acc with tables := acc.tables ++ [{
             name := tableName, aliasName := table.aliasName, schema := table.schema }] }
           (match sets with
            | some setList =>
              { acc with columns := acc.columns ++ setList.foldl (fun cs s =>
                  match s with
                  | some so =>
                    (match so.nameOf with
                     | some n => if n == "" then cs
                         else cs ++ [{ name := n, table := some tableName, isModified := true }]
                     | none => cs)
                  | none => cs) [] }
            | none => acc)
         | none => acc)
      | none => acc
    (match whereF with
     | some w =>
       let r := extractWhereConditions w acc.whereConditions acc.columns acc.tables false
       { acc with whereConditions := r.1, columns := r.2 }
     | none => acc)
  | _ => acc

/-- extractFromDelete: target table with alias/schema, then the WHERE tree. -/
def extractFromDelete (stmt : Statement) (acc : StAcc) : StAcc :=
  match stmt with
  | .deleteStmt fromF whereF =>
    let acc := match fromF with
      | some fromRef =>
        (match extractTableName fromRef with
         | some tableName =>
           { acc with tables := acc.tables ++ [{
             name := tableName, aliasName := fromRef.aliasName, schema := fromRef.schema }] }
         | none => acc)
      | none => acc
    (match whereF with
     | some w =>
       let r := extractWhereConditions w acc.whereConditions acc.columns acc.tables false
       { acc with whereConditions := r.1, columns := r.2 }
     | none => acc)
  | _ => acc

/-- extractFromUnion: each side that is a SELECT is extracted into the same
accumulator, a nested union recurses, anything else is skipped. -/
def extractFromUnion : Statement → StAcc → String → StAcc
  | .unionStmt _ left right, acc, rawSql =>
    let acc := match left with
      | some s =>
        (match s with
         | .selectStmt _ _ _ _ _ => extractFromSelect s acc rawSql
         | .unionStmt _ _ _ => extractFromUnion s acc rawSql
         | _ => acc)
      | none => acc
    (match right with
     | some s =>
       (match s with
        | .selectStmt _ _ _ _ _ => extractFromSelect s acc rawSql
        | .unionStmt _ _ _ => extractFromUnion s acc rawSql
        | _ => acc)
     | none => acc)
  | _, acc, _ => acc

mutual
/-- One iteration of the statement switch of processStatements: dispatch on
the statement kind, set queryType, and run the matching extractor. The WITH
case inlines extractFromCTE: each binding is recursively extracted as its own
ParsedQuery and registered as a virtual table, then the main query is
extracted with a fresh, discarded subqueries array. -/
def processOneStmt : Statement → String → StAcc → StAcc
  | .selectStmt f c w g o, rawSql, acc =>
    extractFromSelect (.selectStmt f c w g o) { acc with queryType := .SELECT } rawSql
  | .insertStmt i c, _, acc => extractFromInsert (.insertStmt i c) { acc with queryType := .INSERT }
  | .updateStmt t s w, _, acc => extractFromUpdate (.updateStmt t s w) { acc with queryType := .UPDATE }
  | .deleteStmt f w, _, acc => extractFromDelete (.deleteStmt f w) { acc with queryType := .DELETE }
  | .withStmt bindF inStmt, rawSql, acc =>
    let acc := { acc with queryType := .CTE }
    let acc := match bindF with
      | some binds => cteLoop binds rawSql acc
      | none => acc
    (match inStmt with
     | some s =>
       let r := extractFromSelect s { acc with subqueries := [] } rawSql
       { r with subqueries := acc.subqueries }
     | none => acc)
  | .unionStmt ua l r, rawSql, acc =>
    extractFromUnion (.unionStmt ua l r) { acc with queryType := .SELECT } rawSql
  | .otherStmt, _, acc => acc

/-- Loop over WITH bindings. processStatements([cte.statement]) is unfolded
to finishing one statement from the initial accumulator, which it equals
definitionally (see processStatements_singleton); the binding alias then
becomes a virtual Table Fact. -/
def cteLoop : List CTEItem → String → StAcc → StAcc
  | [], _, acc => acc
  | .mk stmtF aliasF :: rest, rawSql, acc =>
    let acc := match stmtF with
      | some st =>
        let cteParsed := finishQuery (processOneStmt st rawSql {}) rawSql
        let acc := { acc with ctes := acc.ctes ++ [cteParsed] }
        (match aliasF with
         | some a =>
           if a == "" then acc
           else { acc with tables := acc.tables ++ [{ name := a, aliasName := some a }] }
         | none => acc)
      | none => acc
    cteLoop rest rawSql acc
end

/-- Loop of processStatements over the statement forest. -/
def processStmtList : List Statement → String → StAcc → StAcc
  | [], _, acc => acc
  | s :: rest, rawSql, acc => processStmtList rest rawSql (processOneStmt s rawSql acc)

/-- processStatements: run the statement switch over the forest from the
initial accumulator, then build the ParsedQuery with deduplicated columns. -/
def processStatements (statements : List Statement) (rawSql : String) : ParsedQuery :=
  finishQuery (processStmtList statements rawSql {}) rawSql

/-! ## Schema model and DDL extraction (src/lib/schema-parser/index.ts) -/

/-- ColumnSchema from the schema parser. -/
structure ColumnSchema where
  name : String
  dataType : String
  nullable : Bool
  isPrimaryKey : Bool
  isForeignKey : Bool
deriving DecidableEq, Repr

/-- TableSchema from the schema parser. -/
structure TableSchema where
  name : String
  schema : Option String := none
  columns : List ColumnSchema := []
deriving DecidableEq, Repr

/-- Schema from the schema parser: lower-cased table name to lower-cased
column name to normalized type string, plus the detailed form. The JS
string-keyed objects are association lists here (see mapSet/assocLookup). -/
structure Schema where
  tables : List (String × List (String × String)) := []
  tableDetails : List TableSchema := []
deriving DecidableEq, Repr

/-- SchemaParseResult from the schema parser. -/
structure SchemaParseResult where
  success : Bool
  schema : Option Schema := none
  error : Option String := none
  tableCount : Option Nat := none
deriving DecidableEq, Repr

/-- DataType AST node of the DDL parser: `{name?, length?, precision?,
scale?, arrayOf?, config?}`. Recursive through arrayOf, hence inductive. -/
inductive DataType where
  | mk (name : Option String) (length : Option Nat) (precision : Option Nat)
      (scale : Option Nat) (arrayOf : Option DataType) (config : Option (List Nat))

def DataType.name : DataType → Option String
  | .mk n _ _ _ _ _ => n

def DataType.length : DataType → Option Nat
  | .mk _ l _ _ _ _ => l

def DataType.precision : DataType → Option Nat
  | .mk _ _ p _ _ _ => p

def DataType.scale : DataType → Option Nat
  | .mk _ _ _ s _ _ => s

def DataType.arrayOf : DataType → Option DataType
  | .mk _ _ _ _ a _ => a

def DataType.config : DataType → Option (List Nat)
  | .mk _ _ _ _ _ c => c

/-- formatVarchar: config first (when non-empty), then a truthy length (zero
is falsy), else bare. -/
def formatVarchar (dataType : DataType) : String :=
  match dataType.config with
  | some (n :: _) => "VARCHAR(" ++ toString n ++ ")"
  | _ =>
    match dataType.length with
    | some n => if n == 0 then "VARCHAR" else "VARCHAR(" ++ toString n ++ ")"
    | none => "VARCHAR"

/-- formatChar, same shape as formatVarchar. -/
def formatChar (dataType : DataType) : String :=
  match dataType.config with
  | some (n :: _) => "CHAR(" ++ toString n ++ ")"
  | _ =>
    match dataType.length with
    | some n => if n == 0 then "CHAR" else "CHAR(" ++ toString n ++ ")"
    | none => "CHAR"

/-- formatNumeric: a non-empty config renders one or two parameters; absent
that, a present precision (presence, not truthiness) with optional scale. -/
def formatNumeric (dataType : DataType) : String :=
  match dataType.config with
  | some (a :: b :: _) => "NUMERIC(" ++ toString a ++ "," ++ toString b ++ ")"
  | some [a] => "NUMERIC(" ++ toString a ++ ")"
  | _ =>
    match dataType.precision with
    | some p =>
      (match dataType.scale with
       | some s => "NUMERIC(" ++ toString p ++ "," ++ toString s ++ ")"
       | none => "NUMERIC(" ++ toString p ++ ")")
    | none => "NUMERIC"

/-- formatTime: non-empty config, else present precision, else bare. -/
def formatTime (dataType : DataType) : String :=
  match dataType.config with
  | some (n :: _) => "TIME(" ++ toString n ++ ")"
  | _ =>
    match dataType.precision with
    | some p => "TIME(" ++ toString p ++ ")"
    | none => "TIME"

/-- formatTimestamp, same shape as formatTime. -/
def formatTimestamp (dataType : DataType) : String :=
  match dataType.config with
  | some (n :: _) => "TIMESTAMP(" ++ toString n ++ ")"
  | _ =>
    match dataType.precision with
    | some p => "TIMESTAMP(" ++ toString p ++ ")"
    | none => "TIMESTAMP"

/-- The typeMap object of normalizeDataType, applied to the lower-cased type
name, with the toUpperCase fallback of the missing-key case. -/
def typeMapApply (typeName : String) (dataType : DataType) : String :=
  match typeName with
  | "int" => "INT"
  | "int2" => "SMALLINT"
  | "int4" => "INT"
  | "int8" => "BIGINT"
  | "integer" => "INT"
  | "smallint" => "SMALLINT"
  | "bigint" => "BIGINT"
  | "serial" => "SERIAL"
  | "serial4" => "SERIAL"
  | "serial8" => "BIGSERIAL"
  | "bigserial" => "BIGSERIAL"
  | "float4" => "REAL"
  | "float8" => "DOUBLE PRECISION"
  | "real" => "REAL"
  | "double precision" => "DOUBLE PRECISION"
  | "numeric" => formatNumeric dataType
  | "decimal" => formatNumeric dataType
  | "varchar" => formatVarchar dataType
  | "character varying" => formatVarchar dataType
  | "char" => formatChar dataType
  | "character" => formatChar dataType
  | "text" => "TEXT"
  | "bool" => "BOOLEAN"
  | "boolean" => "BOOLEAN"
  | "date" => "DATE"
  | "time" => formatTime dataType
  | "timestamp" => formatTimestamp dataType
  | "timestamptz" => "TIMESTAMPTZ"
  | "timestamp with time zone" => "TIMESTAMPTZ"
  | "timestamp without time zone" => "TIMESTAMP"
  | "timetz" => "TIMETZ"
  | "time with time zone" => "TIMETZ"
  | "time without time zone" => "TIME"
  | "interval" => "INTERVAL"
  | "uuid" => "UUID"
  | "json" => "JSON"
  | "jsonb" => "JSONB"
  | "bytea" => "BYTEA"
  | "inet" => "INET"
  | "cidr" => "CIDR"
  | "macaddr" => "MACADDR"
  | "money" => "MONEY"
  | "xml" => "XML"
  | "point" => "POINT"
  | "line" => "LINE"
  | "box" => "BOX"
  | "path" => "PATH"
  | "polygon" => "POLYGON"
  | "circle" => "CIRCLE"
  | _ => strToUpper typeName

/-- Body of normalizeDataType on a present node: array types recurse into the
element type appending brackets, everything else goes through the type map
applied to the lower-cased (or unknown) name. -/
def normalizeDataTypeCore : DataType → String
  | .mk nameF lengthF precisionF scaleF arrayOfF configF =>
    let typeName := jsOrDflt (nameF.map strToLower) "unknown"
    match arrayOfF with
    | some inner => normalizeDataTypeCore inner ++ "[]"
    | none => typeMapApply typeName (.mk nameF lengthF precisionF scaleF none configF)

/-- normalizeDataType: an absent node is unknown, otherwise the body above
(the TypeScript recurses through the optional arrayOf field; the split into
a core function keeps the recursion structural). -/
def normalizeDataType : Option DataType → String
  | none => "unknown"
  | some dt => normalizeDataTypeCore dt

/-- The `name` field of a CREATE TABLE node: probed both as a string and as
an object carrying name and schema. -/
inductive TableNameVal where
  | asString (s : String)
  | asObj (name : Option String) (schema : Option String)
deriving DecidableEq, Repr

/-- A column-level constraint node (only its type tag is read). -/
structure ColumnConstraintNode where
  type : Option String := none
deriving DecidableEq, Repr

/-- A table-level constraint node. -/
structure TableConstraintNode where
  type : Option String := none
  columns : Option (List StrOrObj) := none
deriving DecidableEq, Repr

/-- A column definition inside CREATE TABLE. -/
structure CreateColumnDef where
  kind : Option String := none
  name : Option StrOrObj := none
  dataType : Option DataType := none
  constraints : Option (List ColumnConstraintNode) := none

/-- DDL statement nodes: only CREATE TABLE is recognized. -/
inductive DDLStatement where
  | createTable (name : Option TableNameVal) (columns : Option (List CreateColumnDef))
      (constraints : Option (List TableConstraintNode))
  | otherDDL

/-- extractTableInfo: table name and schema from the name node, table-level
PRIMARY KEY constraint columns collected first (lower-cased), then one
ColumnSchema per kind=column definition. The constraint loop only ever
lowers nullable and raises the key flags, so it is rendered as containment
checks over the constraint list. -/
def extractTableInfo (stmt : DDLStatement) : Option TableSchema :=
  match stmt with
  | .createTable nameF columnsF constraintsF =>
    (match nameF with
     | none => none
     | some nv =>
       let tableName? : Option String := match nv with
         | .asString s => some s
         | .asObj n _ => n
       let schemaName : Option String := match nv with
         | .asString _ => none
         | .asObj _ sch => sch
       match tableName? with
       | none => none
       | some tableName =>
         if tableName == "" then none
         else
           let primaryKeyColumns : List String := match constraintsF with
             | some cs => cs.foldl (fun pk c =>
                 if c.type == some "primary key" then
                   match c.columns with
                   | some cols => cols.foldl (fun pk col =>
                       match col.nameOf with
                       | some n => if n == "" then pk else pk ++ [strToLower n]
                       | none => pk) pk
                   | none => pk
                 else pk) []
             | none => []
           let columns : List ColumnSchema := match columnsF with
             | some cols => cols.foldl (fun acc col =>
                 if col.kind != some "column" then acc
                 else
                   match col.name.bind StrOrObj.nameOf with
                   | none => acc
                   | some colName =>
                     if colName == "" then acc
                     else
                       let dataType := normalizeDataType col.dataType
                       let cstrs := (col.constraints).getD []
                       let hasNotNull := cstrs.any (fun c => c.type == some "not null")
                       let hasPKMark := cstrs.any (fun c => c.type == some "primary key")
                       let isPrimaryKey := primaryKeyColumns.contains (strToLower colName) || hasPKMark
                       let isForeignKey := cstrs.any (fun c => c.type == some "reference")
                       let nullable := !(hasNotNull || isPrimaryKey)
                       acc ++ [{ name := colName, dataType := dataType, nullable := nullable,
                                 isPrimaryKey := isPrimaryKey, isForeignKey := isForeignKey }]) []
             | none => []
           some { name := tableName, schema := schemaName, columns := columns })
  | .otherDDL => none

/-- The statement loop of parseDDL after parsing: each recognized CREATE
TABLE registers its lower-cased column-to-type object under its lower-cased
name (later duplicates overwrite) and appends its detailed form. -/
def buildSchemaModel (statements : List DDLStatement) : Schema :=
  statements.foldl (fun acc stmt =>
    match stmt with
    | .createTable _ _ _ =>
      (match extractTableInfo stmt with
       | some tableInfo =>
         let colsMap := tableInfo.columns.foldl
           (fun m col => mapSet m (strToLower col.name) col.dataType) []
         { tables := mapSet acc.tables (strToLower tableInfo.name) colsMap,
           tableDetails := acc.tableDetails ++ [tableInfo] }
       | none => acc)
    | .otherDDL => acc) {}

/-- lookupColumn exported by the schema parser. -/
def lookupColumn (schema : Schema) (tableName columnName : String) : Option String :=
  (assocLookup schema.tables (strToLower tableName)).bind
    (fun t => assocLookup t (strToLower columnName))

/-! ## Schema validation (src/lib/sql-parser/index.ts) -/

/-- The alias-to-real-table map validateColumnsAgainstSchema builds: for each
query table, a truthy alias maps (lower-cased) to the lower-cased name, and
the name maps to itself. -/
def buildAliasToTable (tables : List ParsedTable) : List (String × String) :=
  tables.foldl (fun m t =>
    let realName := strToLower t.name
    let m := match t.aliasName with
      | some a => if a == "" then m else mapSet m (strToLower a) realName
      | none => m
    mapSet m realName realName) []

/-- findTablesWithColumn: every query table whose schema entry exists and
contains the (lower-cased) column contributes its original-case name. -/
def findTablesWithColumn (schema : Schema) (queryTables : List ParsedTable)
    (columnName : String) : List String :=
  let columnLower := strToLower columnName
  queryTables.foldl (fun found t =>
    match assocLookup schema.tables (strToLower t.name) with
    | some tableSchema =>
      if (assocLookup tableSchema columnLower).isSome then found ++ [t.name] else found
    | none => found) []

/-- lookupColumnInSchema of the sql-parser module. -/
def lookupColumnInSchema (schema : Schema) (tableName columnName : String) : Option String :=
  (assocLookup schema.tables (strToLower tableName)).bind
    (fun t => assocLookup t (strToLower columnName))

/-- The per-column body of the validation loop. A falsy table qualifier takes
the inference path over findTablesWithColumn (one match adopts the table and,
when the type string is truthy, marks valid with that type; zero matches mark
invalid; several mark valid without a type). A truthy qualifier resolves
through the alias map with the lower-cased qualifier itself as fallback; a
table absent from the schema leaves the column untouched; a present table
marks the column by the truthiness of the type lookup. -/
def validateOneColumn (schema : Schema) (aliasToTable : List (String × String))
    (queryTables : List ParsedTable) (column : ParsedColumn) : ParsedColumn :=
  if !(truthyOptStr column.table) then
    let matchingTables := findTablesWithColumn schema queryTables column.name
    match matchingTables with
    | [t] =>
      let column := { column with table := some t }
      (match lookupColumnInSchema schema t column.name with
       | some dataType =>
         if dataType == "" then column
         else { column with dataType := some dataType, isValid := some true }
       | none => column)
    | [] => { column with isValid := some false }
    | _ => { column with isValid := some true }
  else
    let ct := column.table.getD ""
    let tableName := jsOrDflt (assocLookup aliasToTable (strToLower ct)) (strToLower ct)
    match assocLookup schema.tables tableName with
    | none => column
    | some tableSchema =>
      (match assocLookup tableSchema (strToLower column.name) with
       | some dataType =>
         if dataType == "" then { column with isValid := some false }
         else { column with isValid := some true, dataType := some dataType }
       | none => { column with isValid := some false })

/-- validateColumnsAgainstSchema: the in-place annotation of every column,
rendered as a map with all other Query Fact fields rebuilt unchanged. -/
def validateColumnsAgainstSchema (result : ParsedQuery) (schema : Schema) : ParsedQuery :=
  match result with
  | .mk t tbls cols js ws cts sqs raw =>
    .mk t tbls (cols.map (validateOneColumn schema (buildAliasToTable tbls) tbls)) js ws cts sqs raw

/-! ## Entry points -/

/-- JavaScript String.prototype.trim, via the character list (the core
String.trim is not kernel-reducible). -/
def jsTrim (s : String) : String :=
  String.mk (((s.data.dropWhile Char.isWhitespace).reverse.dropWhile Char.isWhitespace).reverse)

/-- parseSQL, with the external pgsql-ast-parser abstracted as parseFn. The
empty-input check precedes everything; parser failures and the no-statements
case are wrapped by the catch block; otherwise the statements are processed
and, when a schema is supplied, validated. -/
def parseSQL (parseFn : String → Except String (List Statement)) (sql : String)
    (schema : Option Schema) : Except String ParsedQuery :=
  if jsTrim sql == "" then .error "SQL query cannot be empty"
  else
    match parseFn sql with
    | .error message => .error ("Failed to parse SQL: " ++ message)
    | .ok ast =>
      if ast.isEmpty then .error "Failed to parse SQL: No valid SQL statements found"
      else
        let result := processStatements ast sql
        (match schema with
         | some s => .ok (validateColumnsAgainstSchema result s)
         | none => .ok result)

/-- parseDDL, with the external parser abstracted as parseFn. The empty-input
check precedes everything and returns a failed result directly; the
no-statements case returns its message unwrapped (it is a return, not a
throw); parser failures are wrapped. -/
def parseDDL (parseFn : String → Except String (List DDLStatement)) (ddl : String) : SchemaParseResult :=
  if jsTrim ddl == "" then { success := false, error := some "DDL cannot be empty" }
  else
    match parseFn ddl with
    | .error message => { success := false, error := some ("Failed to parse DDL: " ++ message) }
    | .ok ast =>
      if ast.isEmpty then { success := false, error := some "No valid SQL statements found" }
      else
        let schema := buildSchemaModel ast
        { success := true, schema := some schema, tableCount := some schema.tableDetails.length }

/-! ## Definitions supporting the claims -/

/-- The ON-expression shape of the join-recognition policy stated by the
spec: a single top-level binary equality whose both sides are direct column
references. -/
def isSingleEquiRefOn : Option Expr → Bool
  | none => false
  | some e =>
    match e with
    | .binary op l r =>
      if op == some "=" then
        match l, r with
        | some (.ref _ _), some (.ref _ _) => true
        | _, _ => false
      else false
    | _ => false

/-- The Table Fact that extractFromClause pushes for a table item whose name
resolved to tn. -/
def pushedTable (nm : Option TableRef) (al sch : Option String) (tn : String) : ParsedTable :=
  { name := tn,
    aliasName := jsOrStr al (nm.bind TableRef.aliasName),
    schema := jsOrStr sch (nm.bind TableRef.schema) }

/-- The fields of a column the validator never writes: everything except
table, isValid and dataType. -/
def colSkeleton (c : ParsedColumn) : String × Option String × Bool × Bool × Bool × Bool :=
  (c.name, c.aliasName, c.isSelected, c.isJoinColumn, c.isFilterColumn, c.isModified)

/-- The table name a qualifier resolves to during validation: through the
alias map, falling back to the lower-cased qualifier itself. -/
def resolvedTableName (tables : List ParsedTable) (qual : String) : String :=
  jsOrDflt (assocLookup (buildAliasToTable tables) (strToLower qual)) (strToLower qual)

/-- Left fold of mergeFlags: the surviving map entry after its whole
key-group has been observed. -/
def groupMerge (h : ParsedColumn) (t : List ParsedColumn) : ParsedColumn :=
  t.foldl mergeFlags h

/-- Does every Join Fact of a query refer, on both sides, to an alias or name
of some Table Fact of the same query (the claimed invariant)? -/
def joinTablesReferToTables (q : ParsedQuery) : Bool :=
  q.joins.all (fun j =>
    q.tables.any (fun t => t.aliasName == some j.leftTable || t.name == j.leftTable) &&
    q.tables.any (fun t => t.aliasName == some j.rightTable || t.name == j.rightTable))

/-- The join clause INNER JOIN ... ON a.x = b.y used by the C2 witness. -/
def c2WitnessJoin : JoinNode :=
  { type := some "INNER JOIN",
    onE := some (.binary (some "=")
      (some (.ref (some { name := some "a" }) (some "x")))
      (some (.ref (some { name := some "b" }) (some "y")))) }

/-- The statement AST of
SELECT u.id, u.name, o.total FROM users u INNER JOIN orders o
ON u.id = o.user_id WHERE o.status = (quote)completed(quote). -/
def c6Stmt : Statement :=
  .selectStmt
    (some [
      .tableItem (some { name := some "users", aliasName := some "u" }) none none none,
      .tableItem (some { name := some "orders", aliasName := some "o" }) none none
        (some { type := some "INNER JOIN",
                onE := some (.binary (some "=")
                  (some (.ref (some { name := some "u" }) (some "id")))
                  (some (.ref (some { name := some "o" }) (some "user_id")))) })])
    (some [
      { expr := some (.ref (some { name := some "u" }) (some "id")) },
      { expr := some (.ref (some { name := some "u" }) (some "name")) },
      { expr := some (.ref (some { name := some "o" }) (some "total")) }])
    (some (.binary (some "=")
      (some (.ref (some { name := some "o" }) (some "status")))
      (some (.stringLit "completed"))))
    none none

/-- The raw SQL text of c6Stmt. -/
def c6RawSql : String :=
  "SELECT u.id, u.name, o.total FROM users u INNER JOIN orders o ON u.id = o.user_id WHERE o.status = "
    ++ singleQuote ++ "completed" ++ singleQuote

/-- The statement AST of SELECT b.y FROM a INNER JOIN b ON c.x = b.y, whose
ON clause qualifies a column with a table c that the query never references. -/
def c7Stmt : Statement :=
  .selectStmt
    (some [
      .tableItem (some { name := some "a" }) none none none,
      .tableItem (some { name := some "b" }) none none
        (some { type := some "INNER JOIN",
                onE := some (.binary (some "=")
                  (some (.ref (some { name := some "c" }) (some "x")))
                  (some (.ref (some { name := some "b" }) (some "y")))) })])
    (some [{ expr := some (.ref (some { name := some "b" }) (some "y")) }])
    none none none

/-- The AST of CREATE TABLE t (a NUMERIC(10,2), b NUMERIC(5), c NUMERIC);
parameterized types carry their parameters in the config array. -/
def numericDdlAst : DDLStatement :=
  .createTable (some (.asObj (some "t") none))
    (some [
      { kind := some "column", name := some (.str "a"),
        dataType := some (.mk (some "numeric") none none none none (some [10, 2])) },
      { kind := some "column", name := some (.str "b"),
        dataType := some (.mk (some "numeric") none none none none (some [5])) },
      { kind := some "column", name := some (.str "c"),
        dataType := some (.mk (some "numeric") none none none none none) }])
    none

/-- A one-table query with one alias-qualified column, for the validation
witnesses. -/
def vQualQuery : ParsedQuery :=
  .mk .SELECT [{ name := "T", aliasName := some "u" }] [{ name := "C", table := some "u" }]
    [] [] [] [] "raw"

/-- A one-table query with one unqualified column, for the validation
witnesses. -/
def vUnqualQuery : ParsedQuery :=
  .mk .SELECT [{ name := "t" }] [{ name := "c" }] [] [] [] [] "raw"

/-- A one-table schema carrying column c of type INT. -/
def vSchema : Schema :=
  { tables := [("t", [("c", "INT")])], tableDetails := [] }

/-- The column of vUnqualQuery after validation against vSchema: table
adopted, valid, typed. -/
def vInferredColumn : ParsedColumn :=
  { name := "c", table := some "t", isValid := some true, dataType := some "INT" }

/-- The Join Fact extracted for the C7 witness item. -/
def c7WitnessJoinFact : ParsedJoin :=
  { type := .INNER, leftTable := "a", rightTable := "b",
    leftColumn := "x", rightColumn := "y", condition := some "a.x = b.y" }

/-- The claim-side (table, name) pair comparison, with the empty string as
the sentinel for an unqualified column, as the dedup key uses it. -/
def samePair (c x : ParsedColumn) : Bool :=
  x.table.getD "" == c.table.getD "" && x.name == c.name

/-- A parser-accepted query whose quoted identifiers contain dots:
SELECT "a.b".c FROM t WHERE a."b.c" = 1. Its two observed column references
have distinct (table, name) pairs — (a.b, c) selected and (a, b.c) filter —
but the same dot-joined dedup key "a.b.c". -/
def c1BadStmt : Statement :=
  .selectStmt
    (some [.tableItem (some { name := some "t" }) none none none])
    (some [{ expr := some (.ref (some { name := some "a.b" }) (some "c")) }])
    (some (.binary (some "=")
      (some (.ref (some { name := some "a" }) (some "b.c")))
      (some (.intLit 1))))
    none none

/-- The traversal-observed column list of that query, before deduplication. -/
def c1BadObserved : List ParsedColumn :=
  (processStmtList [c1BadStmt] "sql" {}).columns

/-- The surviving merged entry for the colliding key: it keeps the first
observation pair (a.b, c) but absorbs the filter flag of the second. -/
def c1BadSurvivor : ParsedColumn :=
  { name := "c", table := some "a.b", isSelected := true, isFilterColumn := true }

/-! ## General lemmas about the embedding -/

/-- A single-statement forest unfolds to finishing that one statement; this
is the form cteLoop uses for processStatements([cte.statement]). -/
theorem processStatements_singleton (st : Statement) (rawSql : String) :
    processStatements [st] rawSql = finishQuery (processOneStmt st rawSql {}) rawSql := rfl

/-- A forest holding one unrecognized statement (such as the FROM-subquery
node, whose type tag is the string (statement)) extracts to the empty query. -/
theorem processStatements_unrecognized (rawSql : String) :
    processStatements [Statement.otherStmt] rawSql = emptyParsedQuery rawSql := rfl

/-! ## C8: empty-input rejection -/

/-- C8: for every empty or whitespace-only input, parseSQL fails with the
empty-input error no matter what the parser would return and no matter what
schema is supplied (so neither parsing nor schema validation can influence
the outcome), and parseDDL fails with its empty-input error likewise. -/
theorem c8_empty_input_rejected (s : String) (h : jsTrim s = "") :
    (∀ parseFn schema, parseSQL parseFn s schema = .error "SQL query cannot be empty") ∧
    (∀ parseFn, parseDDL parseFn s =
      { success := false, error := some "DDL cannot be empty" }) := by
  constructor
  · intro parseFn schema
    simp [parseSQL, h]
  · intro parseFn
    simp [parseDDL, h]

/-- Witness for C8 at the three-space input. -/
theorem c8_empty_input_rejected_witness :
    parseSQL (fun _ => .ok []) "   " none = .error "SQL query cannot be empty" ∧
    parseDDL (fun _ => .ok []) "   " =
      { success := false, error := some "DDL cannot be empty" } :=
  ⟨(c8_empty_input_rejected "   " (by decide)).1 (fun _ => .ok []) none,
   (c8_empty_input_rejected "   " (by decide)).2 (fun _ => .ok [])⟩

/-! ## C9: NUMERIC precision and scale -/

/-- C9: the schema built from CREATE TABLE t (a NUMERIC(10,2), b NUMERIC(5),
c NUMERIC) maps t.a, t.b and t.c to the three NUMERIC renderings with
precision and scale preserved. -/
theorem c9_numeric_precision_scale :
    lookupColumn (buildSchemaModel [numericDdlAst]) "t" "a" = some "NUMERIC(10,2)" ∧
    lookupColumn (buildSchemaModel [numericDdlAst]) "t" "b" = some "NUMERIC(5)" ∧
    lookupColumn (buildSchemaModel [numericDdlAst]) "t" "c" = some "NUMERIC" := by
  refine ⟨by decide, by decide, by decide⟩

/-! ## C10: validation frame -/

/-- validateOneColumn never writes name, alias or the four role flags: every
branch is a record update of table, isValid or dataType only. -/
theorem validateOneColumn_skeleton (schema : Schema) (aliasToTable : List (String × String))
    (queryTables : List ParsedTable) (c : ParsedColumn) :
    colSkeleton (validateOneColumn schema aliasToTable queryTables c) = colSkeleton c := by
  unfold validateOneColumn
  split
  · cases hmt : findTablesWithColumn schema queryTables c.name with
    | nil => simp [hmt, colSkeleton]
    | cons t rest =>
      cases rest with
      | nil =>
        cases hlk : lookupColumnInSchema schema t c.name with
        | none => simp [hmt, hlk, colSkeleton]
        | some dataType =>
          by_cases hdt : dataType = ""
          · simp [hmt, hlk, hdt, colSkeleton]
          · simp [hmt, hlk, hdt, colSkeleton]
      | cons t2 r2 => simp [hmt, colSkeleton]
  · cases hsc : assocLookup schema.tables
        (jsOrDflt (assocLookup aliasToTable (strToLower (c.table.getD "")))
          (strToLower (c.table.getD ""))) with
    | none => simp [hsc, colSkeleton]
    | some tableSchema =>
      cases hlk : assocLookup tableSchema (strToLower c.name) with
      | none => simp [hsc, hlk, colSkeleton]
      | some dataType =>
        by_cases hdt : dataType = ""
        · simp [hsc, hlk, hdt, colSkeleton]
        · simp [hsc, hlk, hdt, colSkeleton]

/-- C10: validation rebuilds the Query Fact with every field except columns
unchanged, and maps the columns elementwise with name, alias and all four
role flags preserved (so only table, isValid and dataType can change). -/
theorem c10_validation_frame (q : ParsedQuery) (schema : Schema) :
    (validateColumnsAgainstSchema q schema).type = q.type ∧
    (validateColumnsAgainstSchema q schema).tables = q.tables ∧
    (validateColumnsAgainstSchema q schema).joins = q.joins ∧
    (validateColumnsAgainstSchema q schema).whereConditions = q.whereConditions ∧
    (validateColumnsAgainstSchema q schema).ctes = q.ctes ∧
    (validateColumnsAgainstSchema q schema).subqueries = q.subqueries ∧
    (validateColumnsAgainstSchema q schema).rawSql = q.rawSql ∧
    (validateColumnsAgainstSchema q schema).columns.map colSkeleton
      = q.columns.map colSkeleton := by
  obtain ⟨t, tbls, cols, js, ws, cts, sqs, raw⟩ := q
  refine ⟨rfl, rfl, rfl, rfl, rfl, rfl, rfl, ?_⟩
  show (cols.map (validateOneColumn schema (buildAliasToTable tbls) tbls)).map colSkeleton
      = cols.map colSkeleton
  rw [List.map_map]
  exact List.map_congr_left (fun c _ => validateOneColumn_skeleton schema _ tbls c)

/-! ## C2: join-fact recognition -/

/-- extractJoinInfo succeeds exactly on the single-equality-of-two-refs ON
shape, for every tables list. -/
theorem extractJoinInfo_isSome (nm : Option TableRef) (al sch : Option String)
    (jn : JoinNode) (tables : List ParsedTable) :
    (extractJoinInfo (.tableItem nm al sch (some jn)) tables).isSome
      = isSingleEquiRefOn jn.onE := by
  unfold extractJoinInfo isSingleEquiRefOn
  dsimp only
  cases honE : jn.onE with
  | none => rfl
  | some e =>
    cases e
    case binary op l r =>
      dsimp only
      by_cases hop : (op == some "=") = true
      · rw [if_pos hop, if_pos hop]
        cases l with
        | none => rfl
        | some le =>
          cases r with
          | none => cases le <;> rfl
          | some re => cases le <;> cases re <;> rfl
      · rw [if_neg hop, if_neg hop]
        rfl
    all_goals rfl

/-- C2: for a FROM item with a resolvable table name carrying a JOIN clause,
a Join Fact is appended exactly when the ON expression is a single top-level
binary equality between two direct column references; otherwise the joins
list is unchanged. -/
theorem c2_join_fact_iff_equi (nm : Option TableRef) (al sch : Option String) (jn : JoinNode)
    (acc : StAcc) (rawSql : String) (tn : String)
    (hname : extractTableNameF nm = some tn) (hne : tn ≠ "") :
    (((extractFromClause (.tableItem nm al sch (some jn)) acc rawSql).joins.length
        = acc.joins.length + 1) ↔ isSingleEquiRefOn jn.onE = true) ∧
    (isSingleEquiRefOn jn.onE = false →
      (extractFromClause (.tableItem nm al sch (some jn)) acc rawSql).joins = acc.joins) := by
  have hifneg : ¬((tn == "") = true) := by simp [hne]
  have hjoins : (extractFromClause (.tableItem nm al sch (some jn)) acc rawSql).joins
      = acc.joins ++ (extractJoinInfo (.tableItem nm al sch (some jn))
          (acc.tables ++ [pushedTable nm al sch tn])).toList := by
    unfold extractFromClause
    dsimp only
    simp only [hname, if_neg hifneg]
    split
    case h_1 ji heq => split <;> simp [heq, pushedTable]
    case h_2 heq => simp [heq, pushedTable]
  have hsome := extractJoinInfo_isSome nm al sch jn (acc.tables ++ [pushedTable nm al sch tn])
  rw [hjoins, ← hsome]
  constructor
  · cases extractJoinInfo (.tableItem nm al sch (some jn))
        (acc.tables ++ [pushedTable nm al sch tn]) <;> simp
  · intro hshape
    cases hj : extractJoinInfo (.tableItem nm al sch (some jn))
        (acc.tables ++ [pushedTable nm al sch tn]) with
    | none => simp
    | some ji => rw [hj] at hshape; simp at hshape

/-- Witness for C2: joining table b with ON a.x = b.y from the empty
accumulator appends exactly one Join Fact, and the equality shape holds. -/
theorem c2_join_fact_iff_equi_witness :
    (((extractFromClause (.tableItem (some { name := some "b" }) none none
          (some c2WitnessJoin)) {} "raw").joins.length
        = List.length (StAcc.joins {}) + 1) ↔
      isSingleEquiRefOn c2WitnessJoin.onE = true) ∧
    (isSingleEquiRefOn c2WitnessJoin.onE = false →
      (extractFromClause (.tableItem (some { name := some "b" }) none none
          (some c2WitnessJoin)) {} "raw").joins = StAcc.joins {}) :=
  c2_join_fact_iff_equi (some { name := some "b" }) none none c2WitnessJoin {} "raw" "b"
    rfl (by decide)

/-! ## Validation branch lemmas -/

/-- An assoc-map hit comes from an entry of the map. -/
theorem assocLookup_mem {α : Type} (m : List (String × α)) (k : String) (v : α)
    (h : assocLookup m k = some v) : ∃ p ∈ m, p.1 = k ∧ p.2 = v := by
  unfold assocLookup at h
  cases hf : m.find? (fun p => p.1 == k) with
  | none =>
    rw [hf] at h
    exact absurd h (by simp)
  | some p =>
    rw [hf] at h
    have hv : p.2 = v := by
      have : some p.2 = some v := h
      exact Option.some.inj this
    refine ⟨p, List.mem_of_find?_eq_some hf, ?_, hv⟩
    have hp := List.find?_some hf
    simpa using hp

/-- One step of the findTablesWithColumn fold only appends names whose table
and column are present in the schema. -/
theorem findTablesWithColumn_step (schema : Schema) (columnName : String)
    (found : List String) (tf : ParsedTable) (u : String)
    (hu : u ∈ (match assocLookup schema.tables (strToLower tf.name) with
        | some tableSchema =>
          if (assocLookup tableSchema (strToLower columnName)).isSome
          then found ++ [tf.name] else found
        | none => found)) :
    u ∈ found ∨ (u = tf.name ∧ (lookupColumnInSchema schema u columnName).isSome) := by
  cases hsc : assocLookup schema.tables (strToLower tf.name) with
  | none => rw [hsc] at hu; exact Or.inl hu
  | some ts =>
    rw [hsc] at hu
    dsimp only at hu
    by_cases hcol : (assocLookup ts (strToLower columnName)).isSome
    · rw [if_pos hcol] at hu
      rcases List.mem_append.mp hu with h | h
      · exact Or.inl h
      · simp only [List.mem_singleton] at h
        subst h
        refine Or.inr ⟨rfl, ?_⟩
        unfold lookupColumnInSchema
        rw [hsc]
        simpa using hcol
    · rw [if_neg hcol] at hu
      exact Or.inl hu

/-- Every name findTablesWithColumn returns has the column present in the
schema under that table. -/
theorem findTablesWithColumn_mem (schema : Schema) (columnName : String)
    (qts : List ParsedTable) (t : String)
    (ht : t ∈ findTablesWithColumn schema qts columnName) :
    (lookupColumnInSchema schema t columnName).isSome := by
  unfold findTablesWithColumn at ht
  suffices hgen : ∀ (l : List ParsedTable) (acc : List String),
      (∀ u ∈ acc, (lookupColumnInSchema schema u columnName).isSome) →
      ∀ u ∈ l.foldl (fun found tf =>
          match assocLookup schema.tables (strToLower tf.name) with
          | some tableSchema =>
            if (assocLookup tableSchema (strToLower columnName)).isSome
            then found ++ [tf.name] else found
          | none => found) acc,
        (lookupColumnInSchema schema u columnName).isSome by
    exact hgen qts [] (by intro u hu; simp at hu) t ht
  intro l
  induction l with
  | nil => intro acc hacc u hu; exact hacc u hu
  | cons tf rest ih =>
    intro acc hacc u hu
    rw [List.foldl_cons] at hu
    refine ih _ ?_ u hu
    intro w hw
    rcases findTablesWithColumn_step schema columnName acc tf w hw with h | ⟨heq, h⟩
    · exact hacc w h
    · exact h

/-- The qualified branch of validateOneColumn, written out. -/
theorem validateOneColumn_qualified (schema : Schema) (aliasToTable : List (String × String))
    (queryTables : List ParsedTable) (c : ParsedColumn) (ct : String)
    (hct : c.table = some ct) (hne : ct ≠ "") :
    validateOneColumn schema aliasToTable queryTables c =
      (match assocLookup schema.tables
          (jsOrDflt (assocLookup aliasToTable (strToLower ct)) (strToLower ct)) with
       | none => c
       | some ts =>
         (match assocLookup ts (strToLower c.name) with
          | some dt =>
            if dt == "" then { c with isValid := some false }
            else { c with isValid := some true, dataType := some dt }
          | none => { c with isValid := some false })) := by
  unfold validateOneColumn
  rw [hct]
  simp [truthyOptStr, hne]

/-- The unqualified branch of validateOneColumn, written out. -/
theorem validateOneColumn_unqualified (schema : Schema) (aliasToTable : List (String × String))
    (queryTables : List ParsedTable) (c : ParsedColumn)
    (hct : truthyOptStr c.table = false) :
    validateOneColumn schema aliasToTable queryTables c =
      (match findTablesWithColumn schema queryTables c.name with
       | [t] =>
         (match lookupColumnInSchema schema t c.name with
          | some dt =>
            if dt == "" then { c with table := some t }
            else { c with table := some t, isValid := some true, dataType := some dt }
          | none => { c with table := some t })
       | [] => { c with isValid := some false }
       | _ => { c with isValid := some true }) := by
  unfold validateOneColumn
  rw [hct]
  have hbranch : ((!false) = true) := rfl
  rw [if_pos hbranch]

/-! ## C3: qualified-column tri-state -/

/-- C3: validating a qualified Column Fact is tri-state. When the resolved
table name misses the schema the column is left wholly untouched; when the
table is present but the lower-cased column misses, isValid becomes false
with dataType untouched; when both are present, isValid becomes true and
dataType becomes the schema's type string, which is non-empty. -/
theorem c3_qualified_tristate (q : ParsedQuery) (schema : Schema) (i : Nat)
    (c : ParsedColumn) (ct : String)
    (hget : q.columns[i]? = some c)
    (hct : c.table = some ct) (hne : ct ≠ "")
    (hTypes : ∀ p ∈ schema.tables, ∀ e ∈ p.2, e.2 ≠ "") :
    ∃ c', (validateColumnsAgainstSchema q schema).columns[i]? = some c' ∧
      (assocLookup schema.tables (resolvedTableName q.tables ct) = none → c' = c) ∧
      (∀ ts, assocLookup schema.tables (resolvedTableName q.tables ct) = some ts →
        (assocLookup ts (strToLower c.name) = none →
          c'.isValid = some false ∧ c'.dataType = c.dataType ∧ c'.table = c.table) ∧
        (∀ dt, assocLookup ts (strToLower c.name) = some dt →
          c'.isValid = some true ∧ c'.dataType = some dt ∧ dt ≠ "")) := by
  obtain ⟨ty, tbls, cols, js, ws, cts, sqs, raw⟩ := q
  simp only [ParsedQuery.columns, ParsedQuery.tables] at hget ⊢
  refine ⟨validateOneColumn schema (buildAliasToTable tbls) tbls c, ?_, ?_, ?_⟩
  · show (cols.map (validateOneColumn schema (buildAliasToTable tbls) tbls))[i]? = _
    rw [List.getElem?_map, hget]
    rfl
  · intro hnone
    rw [validateOneColumn_qualified schema _ tbls c ct hct hne]
    unfold resolvedTableName at hnone
    rw [hnone]
  · intro ts hts
    unfold resolvedTableName at hts
    rw [validateOneColumn_qualified schema _ tbls c ct hct hne, hts]
    dsimp only
    constructor
    · intro hnocol
      rw [hnocol]
      exact ⟨rfl, rfl, rfl⟩
    · intro dt hdt
      rw [hdt]
      dsimp only
      have hdtne : dt ≠ "" := by
        obtain ⟨p, hpmem, hpk, hpv⟩ := assocLookup_mem _ _ _ hts
        obtain ⟨e, hemem, hek, hev⟩ := assocLookup_mem _ _ _ hdt
        have hin : e ∈ p.2 := by rw [hpv]; exact hemem
        have := hTypes p hpmem e hin
        rw [hev] at this
        exact this
      rw [if_neg (by simpa using hdtne)]
      exact ⟨rfl, rfl, hdtne⟩

/-- Witness for C3 at a concrete aliased table and present column. -/
theorem c3_qualified_tristate_witness :
    ∃ c', (validateColumnsAgainstSchema vQualQuery vSchema).columns[0]? = some c' ∧
      (assocLookup vSchema.tables (resolvedTableName vQualQuery.tables "u") = none →
        c' = { name := "C", table := some "u" }) ∧
      (∀ ts, assocLookup vSchema.tables (resolvedTableName vQualQuery.tables "u") = some ts →
        (assocLookup ts (strToLower (ParsedColumn.name { name := "C", table := some "u" })) = none →
          c'.isValid = some false ∧
          c'.dataType = ParsedColumn.dataType { name := "C", table := some "u" } ∧
          c'.table = ParsedColumn.table { name := "C", table := some "u" }) ∧
        (∀ dt, assocLookup ts
            (strToLower (ParsedColumn.name { name := "C", table := some "u" })) = some dt →
          c'.isValid = some true ∧ c'.dataType = some dt ∧ dt ≠ "")) :=
  c3_qualified_tristate vQualQuery vSchema 0 { name := "C", table := some "u" } "u"
    rfl rfl (by decide) (by decide)

/-! ## C4: unqualified-column inference -/

/-- C4: validating an unqualified Column Fact searches the query tables in
the schema. Exactly one match adopts that table and marks valid with a type;
no match marks invalid with no type; several matches mark valid with no
type. -/
theorem c4_unqualified_inference (q : ParsedQuery) (schema : Schema) (i : Nat)
    (c : ParsedColumn)
    (hget : q.columns[i]? = some c)
    (hunq : truthyOptStr c.table = false)
    (hTypes : ∀ p ∈ schema.tables, ∀ e ∈ p.2, e.2 ≠ "")
    (hfresh : c.dataType = none) :
    ∃ c', (validateColumnsAgainstSchema q schema).columns[i]? = some c' ∧
      (∀ t, findTablesWithColumn schema q.tables c.name = [t] →
        c'.table = some t ∧ c'.isValid = some true ∧ c'.dataType.isSome) ∧
      (findTablesWithColumn schema q.tables c.name = [] →
        c'.isValid = some false ∧ c'.dataType = none) ∧
      (2 ≤ (findTablesWithColumn schema q.tables c.name).length →
        c'.isValid = some true ∧ c'.dataType = none) := by
  obtain ⟨ty, tbls, cols, js, ws, cts, sqs, raw⟩ := q
  simp only [ParsedQuery.columns, ParsedQuery.tables] at hget ⊢
  refine ⟨validateOneColumn schema (buildAliasToTable tbls) tbls c, ?_, ?_, ?_, ?_⟩
  · show (cols.map (validateOneColumn schema (buildAliasToTable tbls) tbls))[i]? = _
    rw [List.getElem?_map, hget]
    rfl
  · intro t hmt
    rw [validateOneColumn_unqualified schema _ tbls c hunq, hmt]
    dsimp only
    have hsome : (lookupColumnInSchema schema t c.name).isSome := by
      refine findTablesWithColumn_mem schema c.name tbls t ?_
      rw [hmt]
      exact List.mem_singleton.mpr rfl
    cases hlk : lookupColumnInSchema schema t c.name with
    | none => rw [hlk] at hsome; simp at hsome
    | some dt =>
      dsimp only
      have hdtne : dt ≠ "" := by
        unfold lookupColumnInSchema at hlk
        cases hsc : assocLookup schema.tables (strToLower t) with
        | none => rw [hsc] at hlk; simp at hlk
        | some ts =>
          rw [hsc] at hlk
          have hlk' : assocLookup ts (strToLower c.name) = some dt := hlk
          obtain ⟨p, hpmem, hpk, hpv⟩ := assocLookup_mem _ _ _ hsc
          obtain ⟨e, hemem, hek, hev⟩ := assocLookup_mem _ _ _ hlk'
          have hin : e ∈ p.2 := by rw [hpv]; exact hemem
          have := hTypes p hpmem e hin
          rw [hev] at this
          exact this
      rw [if_neg (by simpa using hdtne)]
      exact ⟨rfl, rfl, rfl⟩
  · intro hmt
    rw [validateOneColumn_unqualified schema _ tbls c hunq, hmt]
    exact ⟨rfl, hfresh⟩
  · intro hlen
    cases hmt : findTablesWithColumn schema tbls c.name with
    | nil => rw [hmt] at hlen; simp at hlen
    | cons t rest =>
      cases rest with
      | nil => rw [hmt] at hlen; simp at hlen
      | cons t2 r2 =>
        rw [validateOneColumn_unqualified schema _ tbls c hunq, hmt]
        exact ⟨rfl, hfresh⟩

/-- Witness for C4 at a concrete single-match table. -/
theorem c4_unqualified_inference_witness :
    ∃ c', (validateColumnsAgainstSchema vUnqualQuery vSchema).columns[0]? = some c' ∧
      (∀ t, findTablesWithColumn vSchema vUnqualQuery.tables
          (ParsedColumn.name { name := "c" }) = [t] →
        c'.table = some t ∧ c'.isValid = some true ∧ c'.dataType.isSome) ∧
      (findTablesWithColumn vSchema vUnqualQuery.tables
          (ParsedColumn.name { name := "c" }) = [] →
        c'.isValid = some false ∧ c'.dataType = none) ∧
      (2 ≤ (findTablesWithColumn vSchema vUnqualQuery.tables
          (ParsedColumn.name { name := "c" })).length →
        c'.isValid = some true ∧ c'.dataType = none) :=
  c4_unqualified_inference vUnqualQuery vSchema 0 { name := "c" } rfl rfl (by decide) rfl

/-! ## C5: validity/data-type coupling -/

/-- C5: after validating a freshly extracted Query Fact (all columns start
with isValid and dataType unset) against a schema whose table keys are
non-empty, every column satisfies: invalid implies no data type, and valid
implies a data type whenever the schema contains the column's table. -/
theorem c5_valid_datatype_invariant (q : ParsedQuery) (schema : Schema)
    (hfresh : ∀ c ∈ q.columns, c.isValid = none ∧ c.dataType = none)
    (hkeys : ∀ p ∈ schema.tables, p.1 ≠ "") :
    ∀ c' ∈ (validateColumnsAgainstSchema q schema).columns,
      (c'.isValid = some false → c'.dataType = none) ∧
      (c'.isValid = some true → ∀ t, c'.table = some t →
        (assocLookup schema.tables (strToLower t)).isSome → c'.dataType.isSome) := by
  obtain ⟨ty, tbls, cols, js, ws, cts, sqs, raw⟩ := q
  simp only [ParsedQuery.columns] at hfresh
  intro c' hc'
  have hc'' : c' ∈ cols.map (validateOneColumn schema (buildAliasToTable tbls) tbls) := hc'
  rcases List.mem_map.mp hc'' with ⟨c, hcmem, rfl⟩
  obtain ⟨hIV, hDT⟩ := hfresh c hcmem
  by_cases htr : truthyOptStr c.table = true
  · obtain ⟨ct, hct⟩ : ∃ ct, c.table = some ct := by
      cases hc : c.table with
      | none => rw [hc] at htr; simp [truthyOptStr] at htr
      | some a => exact ⟨a, rfl⟩
    have hne : ct ≠ "" := by
      rw [hct] at htr
      simpa [truthyOptStr] using htr
    rw [validateOneColumn_qualified schema _ tbls c ct hct hne]
    cases hsc : assocLookup schema.tables
        (jsOrDflt (assocLookup (buildAliasToTable tbls) (strToLower ct)) (strToLower ct)) with
    | none =>
      simp only [hsc]
      refine ⟨fun _ => hDT, ?_⟩
      intro htrue
      rw [hIV] at htrue
      simp at htrue
    | some ts =>
      simp only [hsc]
      cases hlk : assocLookup ts (strToLower c.name) with
      | none =>
        simp only [hlk]
        refine ⟨fun _ => hDT, ?_⟩
        intro htrue
        simp at htrue
      | some dt =>
        simp only [hlk]
        by_cases hdt : (dt == "") = true
        · rw [if_pos hdt]
          refine ⟨fun _ => hDT, ?_⟩
          intro htrue
          simp at htrue
        · rw [if_neg hdt]
          refine ⟨?_, ?_⟩
          · intro hfalse
            simp at hfalse
          · intro _ t _ _
            rfl
  · have htr' : truthyOptStr c.table = false := by simpa using htr
    rw [validateOneColumn_unqualified schema _ tbls c htr']
    cases hmt : findTablesWithColumn schema tbls c.name with
    | nil =>
      simp only [hmt]
      refine ⟨fun _ => hDT, ?_⟩
      intro htrue
      simp at htrue
    | cons t rest =>
      cases rest with
      | nil =>
        simp only [hmt]
        cases hlk : lookupColumnInSchema schema t c.name with
        | none =>
          simp only [hlk]
          refine ⟨?_, ?_⟩
          · intro hfalse
            exact absurd hfalse (by simp [hIV])
          · intro htrue
            exact absurd htrue (by simp [hIV])
        | some dt =>
          simp only [hlk]
          by_cases hdt : (dt == "") = true
          · rw [if_pos hdt]
            refine ⟨?_, ?_⟩
            · intro hfalse
              exact absurd hfalse (by simp [hIV])
            · intro htrue
              exact absurd htrue (by simp [hIV])
          · rw [if_neg hdt]
            refine ⟨?_, ?_⟩
            · intro hfalse
              simp at hfalse
            · intro _ t2 _ _
              rfl
      | cons t2 r2 =>
        simp only [hmt]
        refine ⟨?_, ?_⟩
        · intro hfalse
          simp at hfalse
        · intro _ t3 htbl hlook
          have hteq : c.table = some t3 := htbl
          have ht0 : t3 = "" := by
            rw [hteq] at htr'
            simpa [truthyOptStr] using htr'
          subst ht0
          cases hsc : assocLookup schema.tables (strToLower "") with
          | none => rw [hsc] at hlook; simp at hlook
          | some ts =>
            obtain ⟨p, hpmem, hpk, _⟩ := assocLookup_mem _ _ _ hsc
            exact absurd hpk (hkeys p hpmem)

/-- Witness for C5 at the single-match concrete instance. -/
theorem c5_valid_datatype_invariant_witness :
    (vInferredColumn.isValid = some false → vInferredColumn.dataType = none) ∧
    (vInferredColumn.isValid = some true → ∀ t, vInferredColumn.table = some t →
      (assocLookup vSchema.tables (strToLower t)).isSome →
      vInferredColumn.dataType.isSome) :=
  c5_valid_datatype_invariant vUnqualQuery vSchema (by decide) (by decide)
    vInferredColumn (by decide)

/-! ## C6: the scenario's whereConditions string -/

/-- C6 counterexample: the scenario query's whereConditions is not the
unqualified string claimed by the spec. -/
theorem c6_where_conditions_counterexample :
    (processStatements [c6Stmt] c6RawSql).whereConditions
      ≠ ["status = " ++ singleQuote ++ "completed" ++ singleQuote] := by decide

/-- C6 amended: the condition string keeps the raw table qualifier from the
AST, so whereConditions is the one-element list with the qualified string. -/
theorem c6_where_conditions_amended :
    (processStatements [c6Stmt] c6RawSql).whereConditions
      = ["o.status = " ++ singleQuote ++ "completed" ++ singleQuote] := by decide

/-! ## C7: join tables and the tables list -/

/-- C7 counterexample: SELECT b.y FROM a INNER JOIN b ON c.x = b.y produces
a Join Fact whose leftTable (the unreferenced qualifier c) is neither an
alias nor a name of any Table Fact of the query. -/
theorem c7_join_tables_counterexample :
    joinTablesReferToTables (processStatements [c7Stmt] "SELECT ...") = false := by decide

/-- resolveTableName either resolves to the name of some listed table or
keeps the literal qualifier (empty when the qualifier is falsy). -/
theorem resolveTableName_cases (qual : Option String) (tables : List ParsedTable) :
    (∃ t ∈ tables, resolveTableName qual tables = some t.name) ∨
    (resolveTableName qual tables).getD "" = qual.getD "" := by
  cases qual with
  | none => right; rfl
  | some s =>
    by_cases hs : s = ""
    · right
      subst hs
      rfl
    · unfold resolveTableName
      dsimp only
      rw [if_neg (by simpa using hs)]
      cases hf : List.find? (fun t => t.aliasName == some s) tables with
      | none => right; simp [hf]
      | some t =>
        left
        refine ⟨t, List.mem_of_find?_eq_some hf, ?_⟩
        simp [hf]

/-- C7 amended: every Join Fact extractJoinInfo produces comes from an
equality of two refs, and each of its two table strings is either the name of
some Table Fact in the tables list (when the ON qualifier matched an alias,
or named the table directly) or the literal ON qualifier kept as-is (the
empty string for an unqualified reference), which need not occur in the
tables list. -/
theorem c7_join_tables_amended (nm : Option TableRef) (al sch : Option String)
    (jn : JoinNode) (tables : List ParsedTable) (j : ParsedJoin)
    (h : extractJoinInfo (.tableItem nm al sch (some jn)) tables = some j) :
    ∃ op lt ln rt rn,
      jn.onE = some (.binary op (some (.ref lt ln)) (some (.ref rt rn))) ∧
      ((∃ t ∈ tables, t.name = j.leftTable) ∨ j.leftTable = (lt.bind RefTbl.name).getD "") ∧
      ((∃ t ∈ tables, t.name = j.rightTable) ∨ j.rightTable = (rt.bind RefTbl.name).getD "") := by
  have hsome := extractJoinInfo_isSome nm al sch jn tables
  rw [h] at hsome
  have hshape : isSingleEquiRefOn jn.onE = true := by
    simpa using hsome.symm
  cases honE : jn.onE with
  | none => rw [honE] at hshape; simp [isSingleEquiRefOn] at hshape
  | some e =>
    rw [honE] at hshape
    cases e
    case binary op l r =>
      unfold isSingleEquiRefOn at hshape
      dsimp only at hshape
      by_cases hop : (op == some "=") = true
      · rw [if_pos hop] at hshape
        split at hshape
        · rename_i lt ln rt rn
          unfold extractJoinInfo at h
          dsimp only at h
          rw [honE] at h
          dsimp only at h
          rw [if_pos hop] at h
          have hj := Option.some.inj h
          subst hj
          refine ⟨op, lt, ln, rt, rn, rfl, ?_, ?_⟩
          · rcases resolveTableName_cases (lt.bind RefTbl.name) tables with ⟨t, htm, hres⟩ | hlit
            · left
              refine ⟨t, htm, ?_⟩
              show t.name = (resolveTableName (lt.bind RefTbl.name) tables).getD ""
              rw [hres]
              rfl
            · right
              exact hlit
          · rcases resolveTableName_cases (rt.bind RefTbl.name) tables with ⟨t, htm, hres⟩ | hlit
            · left
              refine ⟨t, htm, ?_⟩
              show t.name = (resolveTableName (rt.bind RefTbl.name) tables).getD ""
              rw [hres]
              rfl
            · right
              exact hlit
        · exact absurd hshape (by simp)
      · rw [if_neg hop] at hshape
        exact absurd hshape (by simp)
    all_goals simp [isSingleEquiRefOn] at hshape

/-- Witness for the amended C7 at a concrete equi-join whose left qualifier
names no listed table. -/
theorem c7_join_tables_amended_witness :
    ∃ op lt ln rt rn,
      c2WitnessJoin.onE = some (.binary op (some (.ref lt ln)) (some (.ref rt rn))) ∧
      ((∃ t ∈ [({ name := "b" } : ParsedTable)], t.name = c7WitnessJoinFact.leftTable) ∨
        c7WitnessJoinFact.leftTable = (lt.bind RefTbl.name).getD "") ∧
      ((∃ t ∈ [({ name := "b" } : ParsedTable)], t.name = c7WitnessJoinFact.rightTable) ∨
        c7WitnessJoinFact.rightTable = (rt.bind RefTbl.name).getD "") :=
  c7_join_tables_amended (some { name := some "b" }) none none c2WitnessJoin
    [{ name := "b" }] c7WitnessJoinFact (by decide)

/-! ## C1: column deduplication -/

/-- mergeFlags never changes the dedup key. -/
theorem mergeFlags_key (e col : ParsedColumn) : colKey (mergeFlags e col) = colKey e := rfl

/-- mergeFlags never changes the name. -/
theorem mergeFlags_name (e col : ParsedColumn) : (mergeFlags e col).name = e.name := rfl

/-- mergeFlags never changes the table. -/
theorem mergeFlags_table (e col : ParsedColumn) : (mergeFlags e col).table = e.table := rfl

/-- The per-entry updater of dedupStep never changes the key. -/
theorem dedupStep_entry_key (col a : ParsedColumn) :
    colKey (if colKey a == colKey col then mergeFlags a col else a) = colKey a := by
  split <;> rfl

/-- dedupStep preserves pairwise-distinct keys. -/
theorem dedupStep_pairwise (acc : List ParsedColumn) (col : ParsedColumn)
    (h : acc.Pairwise (fun a b => colKey a ≠ colKey b)) :
    (dedupStep acc col).Pairwise (fun a b => colKey a ≠ colKey b) := by
  unfold dedupStep
  split
  · rw [List.pairwise_map]
    refine h.imp ?_
    intro a b hab
    have h1 := dedupStep_entry_key col a
    have h2 := dedupStep_entry_key col b
    rw [h1, h2]
    exact hab
  · rename_i hany
    rw [List.pairwise_append]
    refine ⟨h, List.pairwise_singleton _ _, ?_⟩
    intro a ha b hb
    simp only [List.mem_singleton] at hb
    subst hb
    intro heq
    exact hany (List.any_eq_true.mpr ⟨a, ha, by simp [heq]⟩)

/-- Distinct keys are preserved along the whole dedup fold. -/
theorem foldl_dedupStep_pairwise (cols : List ParsedColumn) :
    ∀ acc, acc.Pairwise (fun a b => colKey a ≠ colKey b) →
      (cols.foldl dedupStep acc).Pairwise (fun a b => colKey a ≠ colKey b) := by
  induction cols with
  | nil => intro acc h; simpa using h
  | cons c rest ih =>
    intro acc h
    rw [List.foldl_cons]
    exact ih _ (dedupStep_pairwise acc c h)

/-- groupMerge unfolds one observation at a time. -/
theorem groupMerge_cons (h x : ParsedColumn) (t : List ParsedColumn) :
    groupMerge h (x :: t) = groupMerge (mergeFlags h x) t := rfl

/-- groupMerge keeps the first observation's name. -/
theorem groupMerge_name (t : List ParsedColumn) :
    ∀ h, (groupMerge h t).name = h.name := by
  induction t with
  | nil => intro h; rfl
  | cons x t ih =>
    intro h
    rw [groupMerge_cons, ih]
    rfl

/-- groupMerge keeps the first observation's table. -/
theorem groupMerge_table (t : List ParsedColumn) :
    ∀ h, (groupMerge h t).table = h.table := by
  induction t with
  | nil => intro h; rfl
  | cons x t ih =>
    intro h
    rw [groupMerge_cons, ih]
    rfl

/-- The merged isSelected flag is the OR over the whole group. -/
theorem groupMerge_isSelected (t : List ParsedColumn) :
    ∀ h, (groupMerge h t).isSelected = (h.isSelected || t.any (fun x => x.isSelected)) := by
  induction t with
  | nil => intro h; simp [groupMerge]
  | cons x t ih =>
    intro h
    rw [groupMerge_cons, ih]
    simp [mergeFlags, Bool.or_assoc]

/-- The merged isJoinColumn flag is the OR over the whole group. -/
theorem groupMerge_isJoinColumn (t : List ParsedColumn) :
    ∀ h, (groupMerge h t).isJoinColumn = (h.isJoinColumn || t.any (fun x => x.isJoinColumn)) := by
  induction t with
  | nil => intro h; simp [groupMerge]
  | cons x t ih =>
    intro h
    rw [groupMerge_cons, ih]
    simp [mergeFlags, Bool.or_assoc]

/-- The merged isFilterColumn flag is the OR over the whole group. -/
theorem groupMerge_isFilterColumn (t : List ParsedColumn) :
    ∀ h, (groupMerge h t).isFilterColumn = (h.isFilterColumn || t.any (fun x => x.isFilterColumn)) := by
  induction t with
  | nil => intro h; simp [groupMerge]
  | cons x t ih =>
    intro h
    rw [groupMerge_cons, ih]
    simp [mergeFlags, Bool.or_assoc]

/-- The merged isModified flag is the OR over the whole group. -/
theorem groupMerge_isModified (t : List ParsedColumn) :
    ∀ h, (groupMerge h t).isModified = (h.isModified || t.any (fun x => x.isModified)) := by
  induction t with
  | nil => intro h; simp [groupMerge]
  | cons x t ih =>
    intro h
    rw [groupMerge_cons, ih]
    simp [mergeFlags, Bool.or_assoc]

/-- The merged alias is the head's when truthy, else the first truthy alias
of the tail, else the head's. -/
theorem groupMerge_alias (t : List ParsedColumn) :
    ∀ h, (groupMerge h t).aliasName =
      (if truthyOptStr h.aliasName then h.aliasName
       else
         match t.find? (fun x => truthyOptStr x.aliasName) with
         | some x => x.aliasName
         | none => h.aliasName) := by
  induction t with
  | nil =>
    intro h
    split <;> rfl
  | cons x t ih =>
    intro h
    rw [groupMerge_cons, ih]
    by_cases hh : truthyOptStr h.aliasName = true
    · have hma : (mergeFlags h x).aliasName = h.aliasName := by
        simp [mergeFlags, hh]
      rw [hma, if_pos hh, if_pos hh]
    · have hh' : truthyOptStr h.aliasName = false := by simpa using hh
      by_cases hx : truthyOptStr x.aliasName = true
      · have hma : (mergeFlags h x).aliasName = x.aliasName := by
          simp [mergeFlags, hh', hx]
        have hf : List.find? (fun c => truthyOptStr c.aliasName) (x :: t) = some x := by
          simp [List.find?_cons, hx]
        rw [hma, if_pos hx, if_neg hh, hf]
      · have hx' : truthyOptStr x.aliasName = false := by simpa using hx
        have hma : (mergeFlags h x).aliasName = h.aliasName := by
          simp [mergeFlags, hh', hx']
        have hf : List.find? (fun c => truthyOptStr c.aliasName) (x :: t) =
            List.find? (fun c => truthyOptStr c.aliasName) t := by
          simp [List.find?_cons, hx']
        rw [hma, if_neg hh, if_neg hh, hf]

/-- Every entry of the dedup fold is its key-group merged: either it
continues a group begun in the accumulator, or it is a fresh group begun in
the processed columns. -/
theorem foldl_dedupStep_mem (cols : List ParsedColumn) :
    ∀ (acc : List ParsedColumn), acc.Pairwise (fun a b => colKey a ≠ colKey b) →
      ∀ e ∈ cols.foldl dedupStep acc,
        (∃ a ∈ acc, colKey a = colKey e ∧
          e = groupMerge a (cols.filter (fun x => colKey x == colKey a))) ∨
        ((∀ a ∈ acc, colKey a ≠ colKey e) ∧
          ∃ hd tl, cols.filter (fun x => colKey x == colKey e) = hd :: tl ∧
            e = groupMerge hd tl) := by
  induction cols with
  | nil =>
    intro acc hdist e he
    left
    refine ⟨e, he, rfl, ?_⟩
    simp [groupMerge]
  | cons c rest ih =>
    intro acc hdist e he
    rw [List.foldl_cons] at he
    rcases ih (dedupStep acc c) (dedupStep_pairwise acc c hdist) e he with
      ⟨a', ha'mem, ha'key, ha'merge⟩ | ⟨hfresh, hd, tl, hfil, hmerge⟩
    · unfold dedupStep at ha'mem
      by_cases hany : (acc.any (fun x => colKey x == colKey c)) = true
      · rw [if_pos hany] at ha'mem
        rcases List.mem_map.mp ha'mem with ⟨a, hamem, heqa⟩
        subst heqa
        by_cases hak : (colKey a == colKey c) = true
        · rw [if_pos hak] at ha'key ha'merge
          left
          have hkey : colKey a = colKey c := by simpa using hak
          refine ⟨a, hamem, ?_, ?_⟩
          · rw [← mergeFlags_key a c]
            exact ha'key
          · rw [List.filter_cons, if_pos (by simp [hkey])]
            rw [groupMerge_cons]
            simp only [mergeFlags_key] at ha'merge
            exact ha'merge
        · rw [if_neg hak] at ha'key ha'merge
          left
          refine ⟨a, hamem, ha'key, ?_⟩
          have hne : (colKey c == colKey a) = false := by
            have : ¬ colKey a = colKey c := by simpa using hak
            simp
            exact fun hcc => this hcc.symm
          rw [List.filter_cons, if_neg (by simp [hne])]
          exact ha'merge
      · rw [if_neg hany] at ha'mem
        rcases List.mem_append.mp ha'mem with hacc | hc
        · have hkac : ¬ (colKey a' == colKey c) = true :=
            fun hx => hany (List.any_eq_true.mpr ⟨a', hacc, hx⟩)
          have hne : colKey a' ≠ colKey c := by simpa using hkac
          left
          refine ⟨a', hacc, ha'key, ?_⟩
          rw [List.filter_cons, if_neg (by simp; exact fun hcc => hne hcc.symm)]
          exact ha'merge
        · simp only [List.mem_singleton] at hc
          subst hc
          right
          constructor
          · intro a hamem heq
            exact hany (List.any_eq_true.mpr ⟨a, hamem, by simp [heq.trans ha'key.symm]⟩)
          · refine ⟨a', rest.filter (fun x => colKey x == colKey e), ?_, ?_⟩
            · rw [List.filter_cons, if_pos (by simp [ha'key])]
            · rw [ha'key] at ha'merge
              exact ha'merge
    · right
      have hkc_ne : colKey c ≠ colKey e := by
        unfold dedupStep at hfresh
        by_cases hany : (acc.any (fun x => colKey x == colKey c)) = true
        · rw [if_pos hany] at hfresh
          rcases List.any_eq_true.mp hany with ⟨a, hamem, hak⟩
          have himg := hfresh (if colKey a == colKey c then mergeFlags a c else a)
            (List.mem_map.mpr ⟨a, hamem, rfl⟩)
          intro hce
          apply himg
          rw [dedupStep_entry_key]
          have hkey : colKey a = colKey c := by simpa using hak
          rw [hkey, hce]
        · rw [if_neg hany] at hfresh
          exact hfresh c (List.mem_append.mpr (Or.inr (List.mem_singleton.mpr rfl)))
      constructor
      · intro a hamem heq
        unfold dedupStep at hfresh
        by_cases hany : (acc.any (fun x => colKey x == colKey c)) = true
        · rw [if_pos hany] at hfresh
          have himg := hfresh (if colKey a == colKey c then mergeFlags a c else a)
            (List.mem_map.mpr ⟨a, hamem, rfl⟩)
          apply himg
          rw [dedupStep_entry_key]
          exact heq
        · rw [if_neg hany] at hfresh
          exact hfresh a (List.mem_append.mpr (Or.inl hamem)) heq
      · refine ⟨hd, tl, ?_, hmerge⟩
        rw [List.filter_cons, if_neg (by simpa using hkc_ne)]
        exact hfil

/-- Every entry of deduplicateColumns is the merge of its whole key-group in
traversal order. -/
theorem deduplicateColumns_char (cols : List ParsedColumn) :
    ∀ e ∈ deduplicateColumns cols,
      ∃ hd tl, cols.filter (fun x => colKey x == colKey e) = hd :: tl ∧ e = groupMerge hd tl := by
  intro e he
  rcases foldl_dedupStep_mem cols [] (by simp) e he with ⟨a, ha, _⟩ | ⟨_, hd, tl, hfil, hmerge⟩
  · simp at ha
  · exact ⟨hd, tl, hfil, hmerge⟩

/-- C1 counterexample: for the query SELECT "a.b".c FROM t WHERE a."b.c" = 1
the original merge property fails: the surviving Column Fact for the pair
(a.b, c) has isFilterColumn = true although no observed entry with that
(table, name) pair — the empty string standing for an absent table — carries
the filter role; the dedup key conflates it with the pair (a, b.c). -/
theorem c1_column_dedup_counterexample :
    ¬ (∀ c ∈ (processStatements [c1BadStmt] "sql").columns,
        c.isSelected = ((c1BadObserved.filter (samePair c)).any (fun x => x.isSelected)) ∧
        c.isJoinColumn = ((c1BadObserved.filter (samePair c)).any (fun x => x.isJoinColumn)) ∧
        c.isFilterColumn = ((c1BadObserved.filter (samePair c)).any (fun x => x.isFilterColumn)) ∧
        c.isModified = ((c1BadObserved.filter (samePair c)).any (fun x => x.isModified)) ∧
        (∀ a, (c1BadObserved.filter (samePair c)).find? (fun x => truthyOptStr x.aliasName) = some a →
          c.aliasName = a.aliasName)) := by
  intro h
  have hmem : c1BadSurvivor ∈ (processStatements [c1BadStmt] "sql").columns := by decide
  have hflt := (h c1BadSurvivor hmem).2.2.1
  exact absurd hflt (by decide)

/-- C1 (amended): the columns list of every extracted Query Fact contains no
two Column Facts with an identical (table, name) pair; and each surviving
entry of the deduplication carries the OR of the role flags, and the first
non-empty alias, of all observed entries sharing its dot-joined dedup key —
the table, with the empty-string sentinel when absent, joined to the name by
a dot. The key groups by the (table, name) pair exactly when no two distinct
observed pairs collide on it; quoted identifiers containing dots can make
them collide. -/
theorem c1_column_dedup_amended (stmts : List Statement) (rawSql : String)
    (cols : List ParsedColumn) :
    ((processStatements stmts rawSql).columns.Pairwise
      (fun a b => (a.table, a.name) ≠ (b.table, b.name))) ∧
    (∀ c ∈ deduplicateColumns cols,
      c.isSelected = ((cols.filter (fun x => colKey x == colKey c)).any (fun x => x.isSelected)) ∧
      c.isJoinColumn = ((cols.filter (fun x => colKey x == colKey c)).any (fun x => x.isJoinColumn)) ∧
      c.isFilterColumn = ((cols.filter (fun x => colKey x == colKey c)).any (fun x => x.isFilterColumn)) ∧
      c.isModified = ((cols.filter (fun x => colKey x == colKey c)).any (fun x => x.isModified)) ∧
      (∀ a, (cols.filter (fun x => colKey x == colKey c)).find? (fun x => truthyOptStr x.aliasName) = some a →
        c.aliasName = a.aliasName)) := by
  constructor
  · have hp : (deduplicateColumns (processStmtList stmts rawSql {}).columns).Pairwise
        (fun a b => colKey a ≠ colKey b) :=
      foldl_dedupStep_pairwise (processStmtList stmts rawSql {}).columns [] (by simp)
    refine List.Pairwise.imp ?_ hp
    intro a b hab heq
    apply hab
    rw [Prod.mk.injEq] at heq
    unfold colKey
    rw [heq.1, heq.2]
  · intro c hc
    obtain ⟨hd, tl, hfil, hmerge⟩ := deduplicateColumns_char cols c hc
    have hsel : c.isSelected = (hd.isSelected || tl.any (fun x => x.isSelected)) := by
      rw [hmerge, groupMerge_isSelected]
    have hjoi : c.isJoinColumn = (hd.isJoinColumn || tl.any (fun x => x.isJoinColumn)) := by
      rw [hmerge, groupMerge_isJoinColumn]
    have hflt : c.isFilterColumn = (hd.isFilterColumn || tl.any (fun x => x.isFilterColumn)) := by
      rw [hmerge, groupMerge_isFilterColumn]
    have hmod : c.isModified = (hd.isModified || tl.any (fun x => x.isModified)) := by
      rw [hmerge, groupMerge_isModified]
    have hal : c.aliasName =
        (if truthyOptStr hd.aliasName then hd.aliasName
         else
           match tl.find? (fun x => truthyOptStr x.aliasName) with
           | some x => x.aliasName
           | none => hd.aliasName) := by
      rw [hmerge, groupMerge_alias]
    refine ⟨?_, ?_, ?_, ?_, ?_⟩
    · rw [hsel, hfil]
      simp [List.any_cons]
    · rw [hjoi, hfil]
      simp [List.any_cons]
    · rw [hflt, hfil]
      simp [List.any_cons]
    · rw [hmod, hfil]
      simp [List.any_cons]
    · intro a hfind
      rw [hfil] at hfind
      by_cases hh : truthyOptStr hd.aliasName = true
      · have hf : List.find? (fun x => truthyOptStr x.aliasName) (hd :: tl) = some hd := by
          simp [List.find?_cons, hh]
        rw [hf] at hfind
        have hda : hd = a := Option.some.inj hfind
        rw [hal, if_pos hh, hda]
      · have hh2 : truthyOptStr hd.aliasName = false := by simpa using hh
        have hf : List.find? (fun x => truthyOptStr x.aliasName) (hd :: tl) =
            List.find? (fun x => truthyOptStr x.aliasName) tl := by
          simp [List.find?_cons, hh2]
        rw [hf] at hfind
        rw [hal, if_neg hh, hfind]

end QueryLens
